import Mathlib

/-!
# Verification of the memory-mcp-server-go storage layer

Shallow embedding of the storage layer of `okooo5km/memory-mcp-server-go`:
the JSONL (append-log) backend (`src/storage/jsonl.go`), the SQLite
(relational) backend (`src/unnamed/part_004`, second copy, lines 923-2004,
which is the authoritative one cited by the spec), and the migration
verifier (`src/storage/migration.go`).

Modelling conventions:
* Go slices become `List`; Go maps become association lists in call order
  (map iteration order does not affect any modelled observable) or, for the
  summary histograms, extensional functions `String → Nat`.
* `slices.Contains` / name-equality tests become decidable membership /
  equality (`decide`), which is what they compute.
* Go `int` becomes `Int` where sign matters (limits), `Nat` for counts.
* `strings.ToLower` is modelled by `Char.toLower` (ASCII folding); the
  claims and tests only exercise ASCII data.  SQLite `LIKE` is
  case-insensitive for ASCII, modelled by lower-casing both sides; `%`/`_`
  wildcards inside query words are not modelled (never produced by the
  specified callers).
* SQLite tables are lists of rows kept in rowid/insertion order.  The
  schema's `created_at TIMESTAMP DEFAULT CURRENT_TIMESTAMP` columns are
  idealised as the insertion order itself (monotone timestamps), so
  `ORDER BY created_at` is the list order and `ORDER BY created_at DESC`
  its reverse.  `ON DELETE CASCADE` is modelled as enforced, as declared
  by the schema in `createSchema`.
* Search-result context snippets (`Snippets` field) are not modelled: no
  claim concerns their contents.
* File I/O, SQL transaction plumbing and the FTS5 extension are outside
  the embedding; `SearchNodes` is modelled by `searchNodesBasic`, the
  substring-scan path every configuration can reach (the claims cite it).
-/

/-- `Entity` from `part_004` (data model): name, type and observations. -/
structure Entity where
  name : String
  entityType : String
  observations : List String
deriving DecidableEq, Repr

/-- `Relation` from the data model: a directed typed edge. `From` is a Go
field name; Lean reserves `from`, so the field is `from_`. -/
structure Relation where
  from_ : String
  to_ : String
  relationType : String
deriving DecidableEq, Repr

/-- `KnowledgeGraph` from the data model, with the `Truncated` flag. -/
structure KnowledgeGraph where
  entities : List Entity
  relations : List Relation
  truncated : Bool := false
deriving DecidableEq, Repr

/-- `ObservationDeletion` from the data model. -/
structure ObservationDeletion where
  entityName : String
  observations : List String
deriving DecidableEq, Repr

/-- `EntitySummary` from the data model. -/
structure EntitySummary where
  name : String
  entityType : String
deriving DecidableEq, Repr

/-- `GraphSummary` from the data model.  The Go `map[string]int` histograms
are modelled extensionally as functions. -/
structure GraphSummary where
  totalEntities : Nat
  totalRelations : Nat
  entityTypes : String → Nat
  relationTypes : String → Nat
  entities : List EntitySummary
  limit : Int
  hasMore : Bool

/-- `EntitySearchHit` from the data model (snippets not modelled). -/
structure EntitySearchHit where
  name : String
  entityType : String
  observationsCount : Nat
  relationsCount : Nat
deriving DecidableEq, Repr

/-- `SearchResult` from the data model. -/
structure SearchResult where
  entities : List EntitySearchHit
  total : Nat
  limit : Int
  hasMore : Bool
deriving DecidableEq, Repr

/-- Result type of `ReadGraph`, which returns `interface{}` in Go: either
the full graph or a summary. -/
inductive ReadGraphResult where
  | full (g : KnowledgeGraph)
  | summary (s : GraphSummary)

/-- The empty knowledge graph (`loadGraph` on a missing/empty file). -/
def emptyKG : KnowledgeGraph := { entities := [], relations := [] }

/-! ## String helpers (`strings` package operations used by the code) -/

/-- `strings.ToLower`, restricted to ASCII folding (see header); written
over the character list so that it reduces by kernel computation. -/
def lowerStr (s : String) : String := String.mk (s.toList.map Char.toLower)

/-- Whether `pat` occurs at the head of `l` (helper for substring search). -/
def startsWithChars : List Char → List Char → Bool
  | [], _ => true
  | _ :: _, [] => false
  | a :: as, b :: bs => a == b && startsWithChars as bs

/-- Whether `pat` occurs anywhere inside `l`. -/
def containsChars (pat : List Char) : List Char → Bool
  | [] => startsWithChars pat []
  | c :: rest => startsWithChars pat (c :: rest) || containsChars pat rest

/-- `strings.Contains s pat`. -/
def strContains (s pat : String) : Bool := containsChars pat.toList s.toList

/-- Accumulating splitter behind `queryWords`: `acc` holds the current
field's characters in reverse. -/
def fieldsAux (acc : List Char) : List Char → List (List Char)
  | [] => if acc = [] then [] else [acc.reverse]
  | c :: cs =>
    if c.isWhitespace then
      if acc = [] then fieldsAux [] cs else acc.reverse :: fieldsAux [] cs
    else fieldsAux (c :: acc) cs

/-- `strings.Fields`: split on whitespace runs, dropping empty fields. -/
def queryWords (q : String) : List String := (fieldsAux [] q.toList).map String.mk

/-! ## JSONL backend (`src/storage/jsonl.go`)

Every JSONL mutation is load-mutate-rewrite; the file contents are exactly
the in-memory graph, so operations are modelled as pure functions on
`KnowledgeGraph`.  I/O errors are outside the embedding: a `nil` Go error
corresponds to the function being total, and the only non-I/O error path
(`AddObservations` on a missing entity) is modelled with `Except`. -/

/-- Observation merge loop of `JSONLStorage.CreateEntities` (jsonl.go:175-179):
append each incoming observation not already present, checking against the
current (growing) list. -/
def mergeObs (cur : List String) : List String → List String
  | [] => cur
  | o :: os => mergeObs (if o ∈ cur then cur else cur ++ [o]) os

/-- The existing-entity branch of `JSONLStorage.CreateEntities`
(jsonl.go:168-183): find the first entity with the given name, replace its
type and merge observations; returns the updated list and the merged entity
(which is what gets appended to `created`). -/
def updateEntityJSONL (e : Entity) : List Entity → Option (List Entity × Entity)
  | [] => none
  | x :: xs =>
    if x.name = e.name then
      let m : Entity := ⟨x.name, e.entityType, mergeObs x.observations e.observations⟩
      some (m :: xs, m)
    else
      match updateEntityJSONL e xs with
      | some (xs', m) => some (x :: xs', m)
      | none => none

/-- `JSONLStorage.CreateEntities` (jsonl.go:159-196). -/
def createEntitiesJSONL : KnowledgeGraph → List Entity → KnowledgeGraph × List Entity
  | g, [] => (g, [])
  | g, e :: rest =>
    match updateEntityJSONL e g.entities with
    | some (ents', m) =>
      let r := createEntitiesJSONL { g with entities := ents' } rest
      (r.1, m :: r.2)
    | none =>
      let r := createEntitiesJSONL { g with entities := g.entities ++ [e] } rest
      (r.1, e :: r.2)

/-- `JSONLStorage.DeleteEntities` (jsonl.go:199-230): drop named entities and
every relation with a deleted name at either endpoint.  The Go code never
errors on unknown names (it just filters). -/
def deleteEntitiesJSONL (g : KnowledgeGraph) (names : List String) : KnowledgeGraph :=
  { g with
    entities := g.entities.filter (fun e => decide (e.name ∉ names)),
    relations := g.relations.filter
      (fun r => decide (r.from_ ∉ names) && decide (r.to_ ∉ names)) }

/-- `JSONLStorage.CreateRelations` (jsonl.go:233-261): insert each relation
whose (from,to,type) triple — i.e. the whole record — is not yet present;
no entity-existence check is performed. -/
def createRelationsJSONL : KnowledgeGraph → List Relation → KnowledgeGraph × List Relation
  | g, [] => (g, [])
  | g, rel :: rest =>
    if rel ∈ g.relations then
      createRelationsJSONL g rest
    else
      let r := createRelationsJSONL { g with relations := g.relations ++ [rel] } rest
      (r.1, rel :: r.2)

/-- Composite relation key `from|to|type` (`fmt.Sprintf("%s|%s|%s", ...)`),
used by `DeleteRelations` and the migration verifier. -/
def relKeyString (r : Relation) : String := r.from_ ++ "|" ++ r.to_ ++ "|" ++ r.relationType

/-- `JSONLStorage.DeleteRelations` (jsonl.go:264-288). -/
def deleteRelationsJSONL (g : KnowledgeGraph) (rels : List Relation) : KnowledgeGraph :=
  { g with
    relations := g.relations.filter
      (fun r => !(rels.any (fun d => decide (relKeyString d = relKeyString r)))) }

/-- Inner loop of `JSONLStorage.AddObservations` (jsonl.go:304-317).  The Go
code checks each observation against `entity.Observations` — the loop
variable's *stale copy* of the slice — so the appended observations are the
input occurrences absent from the entity's pre-call list (a value duplicated
in the input is appended once per occurrence). -/
def addObsToEntities (name : String) (obsList : List String) :
    List Entity → Option (List Entity × List String)
  | [] => none
  | x :: xs =>
    if x.name = name then
      let adds := obsList.filter (fun o => decide (o ∉ x.observations))
      some ({ x with observations := x.observations ++ adds } :: xs, adds)
    else
      match addObsToEntities name obsList xs with
      | some (xs', adds) => some (x :: xs', adds)
      | none => none

/-- `JSONLStorage.AddObservations` (jsonl.go:291-329): processes the batch
entries in order; a missing entity aborts the whole call with
`entity %s not found` before anything is saved. -/
def addObservationsJSONL :
    KnowledgeGraph → List (String × List String) →
    Except String (KnowledgeGraph × List (String × List String))
  | g, [] => .ok (g, [])
  | g, (n, os) :: rest =>
    match addObsToEntities n os g.entities with
    | none => .error ("entity " ++ n ++ " not found")
    | some (ents', adds) =>
      match addObservationsJSONL { g with entities := ents' } rest with
      | .error msg => .error msg
      | .ok (g', added) => .ok (g', (n, adds) :: added)

/-- Per-deletion loop of `JSONLStorage.DeleteObservations` (jsonl.go:338-358):
find the first entity with the given name and filter out the listed
observations; absent entities are silently ignored. -/
def deleteObsFromEntities (name : String) (obs : List String) : List Entity → List Entity
  | [] => []
  | x :: xs =>
    if x.name = name then
      { x with observations := x.observations.filter (fun o => decide (o ∉ obs)) } :: xs
    else x :: deleteObsFromEntities name obs xs

/-- `JSONLStorage.DeleteObservations` (jsonl.go:332-362). -/
def deleteObservationsJSONL (g : KnowledgeGraph) (ds : List ObservationDeletion) :
    KnowledgeGraph :=
  ds.foldl (fun g d => { g with entities := deleteObsFromEntities d.entityName d.observations g.entities }) g

/-- Summary branch of `JSONLStorage.ReadGraph` (jsonl.go:375-410): counts,
per-type histograms, the first `limit` entities in stored (creation) order,
and `HasMore = TotalEntities > limit`. -/
def jsonlSummary (g : KnowledgeGraph) (limit : Int) : GraphSummary :=
  { totalEntities := g.entities.length
    totalRelations := g.relations.length
    entityTypes := fun t => (g.entities.filter (fun e => decide (e.entityType = t))).length
    relationTypes := fun t => (g.relations.filter (fun r => decide (r.relationType = t))).length
    entities := (g.entities.take limit.toNat).map (fun e => ⟨e.name, e.entityType⟩)
    limit := limit
    hasMore := decide ((g.entities.length : Int) > limit) }

/-- `JSONLStorage.ReadGraph` (jsonl.go:364-411). -/
def readGraphJSONL (g : KnowledgeGraph) (mode : String) (limit : Int) : ReadGraphResult :=
  if mode = "full" then .full g else .summary (jsonlSummary g limit)

/-- `maxObservationsPerEntityJSONL` (jsonl.go:632). -/
def maxObservationsPerEntity : Nat := 100

/-- Truncation of one entity in `OpenNodes` (jsonl.go:667-670). -/
def capObs (e : Entity) : Entity :=
  if maxObservationsPerEntity < e.observations.length then
    { e with observations := e.observations.take maxObservationsPerEntity }
  else e

/-- `JSONLStorage.OpenNodes` (jsonl.go:634-686). -/
def openNodesJSONL (g : KnowledgeGraph) (names : List String) : KnowledgeGraph :=
  if names = [] then { entities := [], relations := [], truncated := false }
  else
    let matched := g.entities.filter (fun e => decide (e.name ∈ names))
    { entities := matched.map capObs
      relations := g.relations.filter
        (fun r => decide (r.from_ ∈ names) || decide (r.to_ ∈ names))
      truncated := matched.any (fun e => decide (maxObservationsPerEntity < e.observations.length)) }

/-! ### JSONL search (`SearchNodes`, jsonl.go:424-569) -/

/-- Match priority constants (jsonl.go:414-419). -/
def priorityNameExact : Nat := 100

/-- Partial name match priority. -/
def priorityNamePartial : Nat := 80

/-- Entity type match priority. -/
def priorityType : Nat := 50

/-- Observation content match priority. -/
def priorityContent : Nat := 20

/-- Priority contributed by one (already lower-cased) query word against one
entity (jsonl.go:478-516): exact name beats partial name (if/else), type and
observation checks are independent; the highest applicable tier wins. -/
def wordPriorityJSONL (e : Entity) (w : String) : Nat :=
  let n := lowerStr e.name
  let t := lowerStr e.entityType
  let namePrio := if n = w then priorityNameExact
    else if strContains n w then priorityNamePartial else 0
  let typePrio := if strContains t w then priorityType else 0
  let obsPrio :=
    if e.observations.any (fun o => strContains (lowerStr o) w) then priorityContent else 0
  max namePrio (max typePrio obsPrio)

/-- Highest priority across all query words (the running `priority` max). -/
def entityPriorityJSONL (e : Entity) (ws : List String) : Nat :=
  ws.foldl (fun p w => max p (wordPriorityJSONL e w)) 0

/-- The `matchedEntity` record of `SearchNodes` (snippets not modelled). -/
structure MatchedEntity where
  entity : Entity
  priority : Nat
deriving DecidableEq, Repr

/-- The comparator of jsonl.go:539-544: higher priority first, then
ascending name. -/
def searchLess (a b : MatchedEntity) : Prop :=
  b.priority < a.priority ∨ (a.priority = b.priority ∧ a.entity.name ≤ b.entity.name)

instance : DecidableRel searchLess := fun a b => by
  unfold searchLess; infer_instance

/-- Matched entities in graph order with their priorities
(jsonl.go:473-536); an entity is matched exactly when some tier applies,
i.e. when its priority is positive. -/
def jsonlMatches (g : KnowledgeGraph) (q : String) : List MatchedEntity :=
  if q = "" then []
  else
    let ws := (queryWords q).map lowerStr
    if ws = [] then []
    else (g.entities.filter (fun e => decide (0 < entityPriorityJSONL e ws))).map
      (fun e => ⟨e, entityPriorityJSONL e ws⟩)

/-- The sort of jsonl.go:539-544.  Go's `slices.SortFunc` is an unstable
sort agreeing with the comparator; `insertionSort` is one such sort. -/
def jsonlSortedMatches (g : KnowledgeGraph) (q : String) : List MatchedEntity :=
  List.insertionSort searchLess (jsonlMatches g q)

/-- The relations-count map of jsonl.go:452-456: each relation increments
the counter of both its endpoints. -/
def jsonlRelationsCount (g : KnowledgeGraph) (name : String) : Nat :=
  (g.relations.filter (fun r => decide (r.from_ = name))).length +
  (g.relations.filter (fun r => decide (r.to_ = name))).length

/-- Projection of a matched entity to an `EntitySearchHit` (jsonl.go:553-559). -/
def hitOfMatched (g : KnowledgeGraph) (m : MatchedEntity) : EntitySearchHit :=
  ⟨m.entity.name, m.entity.entityType, m.entity.observations.length,
    jsonlRelationsCount g m.entity.name⟩

/-- `JSONLStorage.SearchNodes` (jsonl.go:424-569): sorted matches, truncated
to `limit` when positive; `Total` counts all matches; `HasMore` only when a
positive limit truncated. -/
def searchNodesJSONL (g : KnowledgeGraph) (q : String) (limit : Int) : SearchResult :=
  let sorted := jsonlSortedMatches g q
  let total := sorted.length
  let limited := if 0 < limit then sorted.take limit.toNat else sorted
  { entities := limited.map (hitOfMatched g)
    total := total
    limit := limit
    hasMore := if 0 < limit then decide ((total : Int) > limit) else false }

/-! ## SQLite backend (`src/unnamed/part_004`, lines 923-2004)

Tables are lists of rows in rowid order; `nextId` models the
`AUTOINCREMENT` counter of `entities.id`. -/

/-- A row of the `entities` table. -/
structure SEntityRow where
  id : Nat
  name : String
  entityType : String
deriving DecidableEq, Repr

/-- A row of the `observations` table (`UNIQUE(entity_id, content)`). -/
structure SObsRow where
  entityId : Nat
  content : String
deriving DecidableEq, Repr

/-- A row of the `relations` table (`UNIQUE(from,to,type)` on ids). -/
structure SRelRow where
  fromId : Nat
  toId : Nat
  relationType : String
deriving DecidableEq, Repr

/-- The SQLite database state. -/
structure SQLiteDB where
  nextId : Nat
  entities : List SEntityRow
  observations : List SObsRow
  relations : List SRelRow
deriving DecidableEq, Repr

/-- A freshly initialised database (`createSchema`); `AUTOINCREMENT`
starts ids at 1. -/
def emptyDB : SQLiteDB := { nextId := 1, entities := [], observations := [], relations := [] }

/-- `SELECT id FROM entities WHERE name = ? LIMIT 1`. -/
def findEntityId (db : SQLiteDB) (name : String) : Option Nat :=
  (db.entities.find? (fun e => decide (e.name = name))).map (fun e => e.id)

/-- `INSERT INTO observations ... ON CONFLICT(entity_id, content) DO NOTHING`. -/
def insertObsRow (db : SQLiteDB) (eid : Nat) (content : String) : SQLiteDB :=
  if (⟨eid, content⟩ : SObsRow) ∈ db.observations then db
  else { db with observations := db.observations ++ [⟨eid, content⟩] }

/-- Insert a list of observations for one entity, in order. -/
def insertObsList (db : SQLiteDB) (eid : Nat) : List String → SQLiteDB
  | [] => db
  | o :: os => insertObsList (insertObsRow db eid o) eid os

/-- `INSERT INTO entities ... ON CONFLICT(name) DO UPDATE SET entity_type =
excluded.entity_type ... RETURNING id`: update the (unique) row with this
name and return its id, or report no conflict. -/
def upsertEntityRowList (name ty : String) : List SEntityRow → Option (List SEntityRow × Nat)
  | [] => none
  | x :: xs =>
    if x.name = name then some ({ x with entityType := ty } :: xs, x.id)
    else
      match upsertEntityRowList name ty xs with
      | some (xs', i) => some (x :: xs', i)
      | none => none

/-- `SQLiteStorage.CreateEntities` (part_004:1035-1095): upsert each entity
row, insert-or-ignore its observations, and append the *input* entity to
`created` (part_004:1087) — not the post-merge row contents. -/
def createEntitiesSQLite : SQLiteDB → List Entity → SQLiteDB × List Entity
  | db, [] => (db, [])
  | db, e :: rest =>
    let step : SQLiteDB × Nat :=
      match upsertEntityRowList e.name e.entityType db.entities with
      | some (ents', i) => ({ db with entities := ents' }, i)
      | none =>
        ({ db with
            entities := db.entities ++ [⟨db.nextId, e.name, e.entityType⟩],
            nextId := db.nextId + 1 }, db.nextId)
    let db₂ := insertObsList step.1 step.2 e.observations
    let r := createEntitiesSQLite db₂ rest
    (r.1, e :: r.2)

/-- `SQLiteStorage.DeleteEntities` (part_004:1098-1117):
`DELETE FROM entities WHERE name IN (...)` with the schema's
`ON DELETE CASCADE` removing the dead entities' observations and
relations.  Unknown names simply match no rows. -/
def deleteEntitiesSQLite (db : SQLiteDB) (names : List String) : SQLiteDB :=
  let deletedIds := (db.entities.filter (fun e => decide (e.name ∈ names))).map (fun e => e.id)
  { db with
    entities := db.entities.filter (fun e => decide (e.name ∉ names)),
    observations := db.observations.filter (fun o => decide (o.entityId ∉ deletedIds)),
    relations := db.relations.filter
      (fun r => decide (r.fromId ∉ deletedIds) && decide (r.toId ∉ deletedIds)) }

/-- `SQLiteStorage.CreateRelations` (part_004:1120-1164): the INSERT..SELECT
inserts only when both endpoint names exist (`WHERE EXISTS ... AND EXISTS`),
`ON CONFLICT DO NOTHING` on the id triple; a relation is reported `created`
exactly when `RowsAffected > 0`. -/
def createRelationsSQLite : SQLiteDB → List Relation → SQLiteDB × List Relation
  | db, [] => (db, [])
  | db, rel :: rest =>
    match findEntityId db rel.from_, findEntityId db rel.to_ with
    | some fid, some tid =>
      if (⟨fid, tid, rel.relationType⟩ : SRelRow) ∈ db.relations then
        createRelationsSQLite db rest
      else
        let r := createRelationsSQLite
          { db with relations := db.relations ++ [⟨fid, tid, rel.relationType⟩] } rest
        (r.1, rel :: r.2)
    | _, _ => createRelationsSQLite db rest

/-- One batch entry of `SQLiteStorage.AddObservations` (part_004:1216-1236):
`INSERT INTO observations SELECT id, ? FROM entities WHERE name = ?
ON CONFLICT DO NOTHING`; a missing entity makes the SELECT empty, so zero
rows are affected and nothing is recorded as added — no error. -/
def addObsSQLiteOne (db : SQLiteDB) (name : String) : List String → SQLiteDB × List String
  | [] => (db, [])
  | o :: os =>
    match findEntityId db name with
    | some eid =>
      if (⟨eid, o⟩ : SObsRow) ∈ db.observations then addObsSQLiteOne db name os
      else
        let r := addObsSQLiteOne
          { db with observations := db.observations ++ [⟨eid, o⟩] } name os
        (r.1, o :: r.2)
    | none => addObsSQLiteOne db name os

/-- `SQLiteStorage.AddObservations` (part_004:1204-1246).  The Go map is
modelled as an association list in iteration order; the result is total —
the SQLite backend has no entity-not-found error path. -/
def addObservationsSQLite :
    SQLiteDB → List (String × List String) → SQLiteDB × List (String × List String)
  | db, [] => (db, [])
  | db, (n, os) :: rest =>
    let r₁ := addObsSQLiteOne db n os
    let r₂ := addObservationsSQLite r₁.1 rest
    (r₂.1, (n, r₁.2) :: r₂.2)

/-- One DELETE of `SQLiteStorage.DeleteRelations` (part_004:1180-1192): the
scalar subqueries yield NULL for a missing endpoint name, matching no rows. -/
def deleteRelRowSQLite (db : SQLiteDB) (rel : Relation) : SQLiteDB :=
  match findEntityId db rel.from_, findEntityId db rel.to_ with
  | some fid, some tid =>
    { db with relations := db.relations.filter (fun r =>
        !(decide (r.fromId = fid) && decide (r.toId = tid) &&
          decide (r.relationType = rel.relationType))) }
  | _, _ => db

/-- `SQLiteStorage.DeleteRelations` (part_004:1167-1201). -/
def deleteRelationsSQLite (db : SQLiteDB) (rels : List Relation) : SQLiteDB :=
  rels.foldl deleteRelRowSQLite db

/-- One DELETE of `SQLiteStorage.DeleteObservations` (part_004:1260-1272). -/
def deleteObsRowSQLite (db : SQLiteDB) (name o : String) : SQLiteDB :=
  match findEntityId db name with
  | some eid =>
    { db with observations := db.observations.filter (fun r =>
        !(decide (r.entityId = eid) && decide (r.content = o))) }
  | none => db

/-- `SQLiteStorage.DeleteObservations` (part_004:1249-1284). -/
def deleteObservationsSQLite (db : SQLiteDB) (ds : List ObservationDeletion) : SQLiteDB :=
  ds.foldl (fun db d =>
    d.observations.foldl (fun db o => deleteObsRowSQLite db d.entityName o) db) db

/-- Observation contents of one entity in rowid order
(`SELECT content FROM observations WHERE entity_id = ?`). -/
def obsOf (db : SQLiteDB) (eid : Nat) : List String :=
  (db.observations.filter (fun o => decide (o.entityId = eid))).map (fun o => o.content)

/-- The entity JOIN of `readGraphFull`/`OpenNodes`: resolve a relation row's
endpoint ids to names; a dangling id drops the row (inner join). -/
def relationOfRow (db : SQLiteDB) (r : SRelRow) : Option Relation :=
  match db.entities.find? (fun e => decide (e.id = r.fromId)),
        db.entities.find? (fun e => decide (e.id = r.toId)) with
  | some f, some t => some ⟨f.name, t.name, r.relationType⟩
  | _, _ => none

/-- `readGraphFull` (part_004:1380-1456).  The `GROUP_CONCAT`/split
round-trip of observation lists is modelled directly as the per-entity
content lists. -/
def readGraphFullSQLite (db : SQLiteDB) : KnowledgeGraph :=
  { entities := db.entities.map (fun e => ⟨e.name, e.entityType, obsOf db e.id⟩)
    relations := db.relations.filterMap (relationOfRow db)
    truncated := false }

/-- SQL `LIMIT n`: a negative argument means no limit. -/
def sqlLimit (n : Int) (l : List α) : List α := if n < 0 then l else l.take n.toNat

/-- `readGraphSummary` (part_004:1295-1377): counts, histograms, and the
first `limit` entities ordered `created_at DESC` (most recent first). -/
def readGraphSummarySQLite (db : SQLiteDB) (limit : Int) : GraphSummary :=
  { totalEntities := db.entities.length
    totalRelations := db.relations.length
    entityTypes := fun t => (db.entities.filter (fun e => decide (e.entityType = t))).length
    relationTypes := fun t => (db.relations.filter (fun r => decide (r.relationType = t))).length
    entities := (sqlLimit limit db.entities.reverse).map (fun e => ⟨e.name, e.entityType⟩)
    limit := limit
    hasMore := decide ((db.entities.length : Int) > limit) }

/-- `SQLiteStorage.ReadGraph` (part_004:1287-1293). -/
def readGraphSQLite (db : SQLiteDB) (mode : String) (limit : Int) : ReadGraphResult :=
  if mode = "full" then .full (readGraphFullSQLite db)
  else .summary (readGraphSummarySQLite db limit)

/-- SQLite `LIKE '%w%'` (ASCII case-insensitive substring). -/
def likeContains (s pat : String) : Bool := strContains (lowerStr s) (lowerStr pat)

/-- The WHERE clause of `searchNodesBasic` (part_004:1502-1510) on the
entity⋈observations join: some query word LIKE-matches the name, the type,
or one of the entity's observation contents. -/
def rowMatches (db : SQLiteDB) (ws : List String) (e : SEntityRow) : Bool :=
  ws.any (fun w =>
    likeContains e.name w || likeContains e.entityType w ||
    db.observations.any (fun o => decide (o.entityId = e.id) && likeContains o.content w))

/-- Relations count per hit (part_004:1597-1603): `COUNT(DISTINCT r.id)`
over relations with the entity at either endpoint. -/
def sqliteRelCount (db : SQLiteDB) (eid : Nat) : Nat :=
  (db.relations.filter (fun r => decide (r.fromId = eid) || decide (r.toId = eid))).length

/-- The matched-entity list of `searchNodesBasic` (part_004:1488-1577): an
empty or all-whitespace query matches nothing (early return), otherwise the
entities satisfying the LIKE clause, ordered by `created_at DESC`. -/
def sqliteSearchMatches (db : SQLiteDB) (q : String) : List SEntityRow :=
  if q = "" then []
  else
    let ws := queryWords q
    if ws = [] then []
    else db.entities.reverse.filter (rowMatches db ws)

/-- `SQLiteStorage.searchNodesBasic` (part_004:1483-1654): matching entities
ordered by `created_at DESC` (no priority ranking), `LIMIT` only when
positive; `Total` from the unlimited COUNT query; `HasMore` only for a
positive limit. -/
def searchNodesBasicSQLite (db : SQLiteDB) (q : String) (limit : Int) : SearchResult :=
  let matched := sqliteSearchMatches db q
  let total := matched.length
  let limited := if 0 < limit then matched.take limit.toNat else matched
  { entities := limited.map (fun e =>
      ⟨e.name, e.entityType, (obsOf db e.id).length, sqliteRelCount db e.id⟩)
    total := total
    limit := limit
    hasMore := if 0 < limit then decide ((total : Int) > limit) else false }

/-- `SQLiteStorage.OpenNodes` (part_004:1776-1914): requested entities in
creation order, observations `LIMIT 100` with `Truncated` set when an
entity's total count exceeds the cap; relations with either endpoint among
the found entity ids, joined back to names. -/
def openNodesSQLite (db : SQLiteDB) (names : List String) : KnowledgeGraph :=
  if names = [] then { entities := [], relations := [], truncated := false }
  else
    let matchedRows := db.entities.filter (fun e => decide (e.name ∈ names))
    let ids := matchedRows.map (fun e => e.id)
    { entities := matchedRows.map (fun e =>
        ⟨e.name, e.entityType, (obsOf db e.id).take maxObservationsPerEntity⟩)
      relations := (db.relations.filter
          (fun r => decide (r.fromId ∈ ids) || decide (r.toId ∈ ids))).filterMap
        (relationOfRow db)
      truncated := matchedRows.any
        (fun e => decide (maxObservationsPerEntity < (obsOf db e.id).length)) }

/-- Well-formedness of a database state, maintained by the schema
constraints: distinct entity ids and names, and foreign keys resolving. -/
def SQLiteDB.WF (db : SQLiteDB) : Prop :=
  (db.entities.map (fun e => e.id)).Nodup ∧
  (db.entities.map (fun e => e.name)).Nodup ∧
  (∀ o ∈ db.observations, ∃ e ∈ db.entities, e.id = o.entityId) ∧
  (∀ r ∈ db.relations,
    (∃ e ∈ db.entities, e.id = r.fromId) ∧ (∃ e ∈ db.entities, e.id = r.toId))

/-! ## Migration verifier (`src/storage/migration.go:222-341`) -/

/-- Source relations whose `from|to|type` key is absent from the
destination (migration.go:243-256, 264-267). -/
def missingRelations (s d : KnowledgeGraph) : List Relation :=
  s.relations.filter
    (fun r => !(d.relations.any (fun r' => decide (relKeyString r' = relKeyString r))))

/-- A missing relation is orphaned when either endpoint entity is absent
from the destination (migration.go:268). -/
def relOrphaned (d : KnowledgeGraph) (r : Relation) : Bool :=
  !(d.entities.any (fun e => decide (e.name = r.from_))) ||
  !(d.entities.any (fun e => decide (e.name = r.to_)))

/-- Count of orphaned missing relations. -/
def orphanedMissingCount (s d : KnowledgeGraph) : Nat :=
  ((missingRelations s d).filter (relOrphaned d)).length

/-- `nonOrphanedMissing := missingCount - orphanedCount` (migration.go:285). -/
def nonOrphanedMissingCount (s d : KnowledgeGraph) : Nat :=
  (missingRelations s d).length - orphanedMissingCount s d

/-- The indices spot-checked by the verifier: first, middle and last
(migration.go:312-316). -/
def spotIndices (n : Nat) : List Nat :=
  if n = 0 then [] else if n = 1 then [0] else [0, n / 2, n - 1]

/-- Spot-check one source entity against the destination
(migration.go:323-339); the Go name→entity map keeps the last occurrence of
a duplicated name, hence the reversed search. -/
def spotCheckEntity (d : KnowledgeGraph) (src : Entity) : Except String Unit :=
  match d.entities.reverse.find? (fun e => decide (e.name = src.name)) with
  | none => .error ("entity " ++ src.name ++ " not found in destination")
  | some dst =>
    if src.entityType ≠ dst.entityType then
      .error ("entity type mismatch for " ++ src.name)
    else if src.observations.length ≠ dst.observations.length then
      .error ("observation count mismatch for " ++ src.name)
    else .ok ()

/-- Run the spot checks in order, stopping at the first failure. -/
def spotCheckList (d : KnowledgeGraph) : List Entity → Except String Unit
  | [] => .ok ()
  | e :: es =>
    match spotCheckEntity d e with
    | .error m => .error m
    | .ok _ => spotCheckList d es

/-- `Migrator.verifyMigration` (migration.go:222-341): hard failure on an
entity count mismatch; on a relation count mismatch, success exactly when
the non-orphaned missing count is at most 5; otherwise (counts equal) the
bounded spot check. -/
def verifyMigration (s d : KnowledgeGraph) : Except String Unit :=
  if s.entities.length ≠ d.entities.length then
    .error ("entity count mismatch: source=" ++ toString s.entities.length ++
      ", dest=" ++ toString d.entities.length)
  else if s.relations.length ≠ d.relations.length then
    if nonOrphanedMissingCount s d ≤ 5 then .ok ()
    else
      .error ("relation count mismatch (missing: " ++
        toString (missingRelations s d).length ++ ", orphaned: " ++
        toString (orphanedMissingCount s d) ++ ", non-orphaned missing: " ++
        toString (nonOrphanedMissingCount s d) ++ ")")
  else
    spotCheckList d ((spotIndices s.entities.length).filterMap (fun i => s.entities.get? i))

/-! ## Example fixtures used by counterexamples and witnesses -/

/-- A database holding the single entity `a` (no observations). -/
def exDB1 : SQLiteDB := (createEntitiesSQLite emptyDB [⟨"a", "t", []⟩]).1

/-- A database holding the single entity `a` with observation `x`. -/
def exDB3 : SQLiteDB := (createEntitiesSQLite emptyDB [⟨"a", "t", ["x"]⟩]).1

/-- The three search-ranking test entities of the repository's own
`TestSearchPrioritySQLite`, inserted in that order. -/
def exSearchDB : SQLiteDB :=
  (createEntitiesSQLite emptyDB
    [⟨"Claude Code", "tool", ["A CLI tool for coding assistance"]⟩,
     ⟨"VSCode", "editor", ["Supports Claude plugin for AI assistance"]⟩,
     ⟨"Vim", "editor", ["A classic text editor"]⟩]).1

/-- The same three entities as a JSONL graph (file order = creation order). -/
def exSearchKG : KnowledgeGraph :=
  ⟨[⟨"Claude Code", "tool", ["A CLI tool for coding assistance"]⟩,
    ⟨"VSCode", "editor", ["Supports Claude plugin for AI assistance"]⟩,
    ⟨"Vim", "editor", ["A classic text editor"]⟩], [], false⟩

/-- Migration-verification example source: two entities, one surviving
relation, and three relations referencing the absent entity `ghost`. -/
def exMigSrc : KnowledgeGraph :=
  ⟨[⟨"a", "t", []⟩, ⟨"b", "t", []⟩],
   [⟨"a", "b", "knows"⟩, ⟨"ghost", "a", "r1"⟩, ⟨"ghost", "a", "r2"⟩, ⟨"ghost", "b", "r3"⟩],
   false⟩

/-- Migration-verification example destination: the orphaned relations were
dropped in transfer. -/
def exMigDst : KnowledgeGraph :=
  ⟨[⟨"a", "t", []⟩, ⟨"b", "t", []⟩], [⟨"a", "b", "knows"⟩], false⟩

/-- An entity with 150 observations. -/
def exBigEntity : Entity := ⟨"big", "t", (List.range 150).map toString⟩

/-- A JSONL graph holding one entity with 150 observations. -/
def exBigKG : KnowledgeGraph := ⟨[exBigEntity], [], false⟩

/-- A JSONL graph with entities `a` then `b` created in that order. -/
def exOrderKG : KnowledgeGraph := (createEntitiesJSONL emptyKG [⟨"a", "t", []⟩, ⟨"b", "t", []⟩]).1

/-- Name listing of a `ReadGraph` result (projection used to state the C8
counterexample). -/
def readGraphNames : ReadGraphResult → List String
  | .full g => g.entities.map (fun e => e.name)
  | .summary s => s.entities.map (fun e => e.name)

/-- A JSONL graph holding one entity `a` with observation `x`. -/
def exObsKG : KnowledgeGraph := ⟨[⟨"a", "t", ["x"]⟩], [], false⟩

/-- A database holding entities `a` and `b` (for relation witnesses). -/
def exMigDB : SQLiteDB := (createEntitiesSQLite emptyDB [⟨"a", "t", []⟩, ⟨"b", "t", []⟩]).1

/-- `exMigDB` with the relation `a → b` stored. -/
def exRelDB : SQLiteDB := (createRelationsSQLite exMigDB [⟨"a", "b", "knows"⟩]).1

/-! ## Shared helper lemmas -/

/-- Membership in a merged observation list: exactly the old and new values. -/
theorem mergeObs_mem (os : List String) (cur : List String) (x : String) :
    x ∈ mergeObs cur os ↔ x ∈ cur ∨ x ∈ os := by
  induction os generalizing cur with
  | nil => simp [mergeObs]
  | cons o os ih =>
    simp only [mergeObs]
    by_cases h : o ∈ cur
    · simp only [if_pos h, ih]
      constructor
      · rintro (hx | hx)
        · exact Or.inl hx
        · exact Or.inr (List.mem_cons_of_mem _ hx)
      · rintro (hx | hx)
        · exact Or.inl hx
        · rcases List.mem_cons.mp hx with rfl | hx
          · exact Or.inl h
          · exact Or.inr hx
    · simp only [if_neg h, ih, List.mem_append, List.mem_singleton, List.mem_cons]
      tauto

/-- Merging preserves freedom from duplicates of the current list. -/
theorem mergeObs_nodup (os : List String) (cur : List String) (h : cur.Nodup) :
    (mergeObs cur os).Nodup := by
  induction os generalizing cur with
  | nil => exact h
  | cons o os ih =>
    simp only [mergeObs]
    by_cases hm : o ∈ cur
    · exact ih _ (by simpa [if_pos hm] using h)
    · rw [if_neg hm]
      exact ih _ (by simp [List.nodup_append, h, hm])

/-- The merged list keeps the existing observations first, in order, and
appends only novel incoming values. -/
theorem mergeObs_decomp (os : List String) (cur : List String) :
    ∃ tail, mergeObs cur os = cur ++ tail ∧ ∀ x ∈ tail, x ∉ cur ∧ x ∈ os := by
  induction os generalizing cur with
  | nil => exact ⟨[], by simp [mergeObs]⟩
  | cons o os ih =>
    simp only [mergeObs]
    by_cases hm : o ∈ cur
    · rw [if_pos hm]
      obtain ⟨tail, h1, h2⟩ := ih cur
      exact ⟨tail, h1, fun x hx => ⟨(h2 x hx).1, List.mem_cons_of_mem _ (h2 x hx).2⟩⟩
    · rw [if_neg hm]
      obtain ⟨tail, h1, h2⟩ := ih (cur ++ [o])
      refine ⟨o :: tail, by simpa using h1, ?_⟩
      intro x hx
      rcases List.mem_cons.mp hx with rfl | hx
      · exact ⟨hm, List.mem_cons_self _ _⟩
      · obtain ⟨hn, ho⟩ := h2 x hx
        simp only [List.mem_append, List.mem_singleton] at hn
        push_neg at hn
        exact ⟨hn.1, List.mem_cons_of_mem _ ho⟩

/-- `find?` by id returns the member itself when ids are distinct. -/
theorem find?_by_id (l : List SEntityRow) (hnd : (l.map (fun e => e.id)).Nodup)
    (row : SEntityRow) (hrow : row ∈ l) :
    l.find? (fun e => decide (e.id = row.id)) = some row := by
  induction l with
  | nil => cases hrow
  | cons x xs ih =>
    rcases List.mem_cons.mp hrow with rfl | hmem
    · simp [List.find?]
    · have hx : x.id ≠ row.id := by
        intro h
        have : x.id ∈ xs.map (fun e => e.id) := h ▸ List.mem_map_of_mem _ hmem
        exact (List.nodup_cons.mp hnd).1 this
      have hpx : (fun e => decide (e.id = row.id)) x = false := by simp [hx]
      rw [show List.find? (fun e => decide (e.id = row.id)) (x :: xs) =
        List.find? (fun e => decide (e.id = row.id)) xs by simp [List.find?, hpx]]
      exact ih (List.nodup_cons.mp hnd).2 hmem

/-- `find?` by name returns the member itself when names are distinct. -/
theorem find?_by_name (l : List SEntityRow) (hnd : (l.map (fun e => e.name)).Nodup)
    (row : SEntityRow) (hrow : row ∈ l) :
    l.find? (fun e => decide (e.name = row.name)) = some row := by
  induction l with
  | nil => cases hrow
  | cons x xs ih =>
    rcases List.mem_cons.mp hrow with rfl | hmem
    · simp [List.find?]
    · have hx : x.name ≠ row.name := by
        intro h
        have : x.name ∈ xs.map (fun e => e.name) := h ▸ List.mem_map_of_mem _ hmem
        exact (List.nodup_cons.mp hnd).1 this
      have hpx : (fun e => decide (e.name = row.name)) x = false := by simp [hx]
      rw [show List.find? (fun e => decide (e.name = row.name)) (x :: xs) =
        List.find? (fun e => decide (e.name = row.name)) xs by simp [List.find?, hpx]]
      exact ih (List.nodup_cons.mp hnd).2 hmem

/-- The observation cap is a `take`. -/
theorem capObs_eq_take (e : Entity) :
    capObs e = { e with observations := e.observations.take maxObservationsPerEntity } := by
  unfold capObs
  split
  · rfl
  · next h =>
    have : e.observations.take maxObservationsPerEntity = e.observations :=
      List.take_of_length_le (by omega)
    simp [this]

/-! ## Claim C1 — AddObservations not-found behaviour -/

/-- C1 counterexample.  The claim says that on *every* backend a batch
naming a missing entity fails with a not-found error and commits nothing.
On the SQLite backend the call `AddObservations {missing: [y], a: [x]}`
against a database holding only `a` does not fail: it reports the missing
entity as having zero added observations and commits the insertion of `x`
for `a` in the same batch. -/
theorem C1_counterexample :
    (addObservationsSQLite exDB1 [("missing", ["y"]), ("a", ["x"])]).2 =
      [("missing", []), ("a", ["x"])] ∧
    (addObservationsSQLite exDB1 [("missing", ["y"]), ("a", ["x"])]).1.observations =
      [⟨1, "x"⟩] := by
  exact ⟨rfl, rfl⟩

/-! ## Claim C9 — migration verification -/

/-- C9: migration verification fails whenever the entity counts differ;
when they match but the relation counts differ, it succeeds exactly when
the non-orphaned missing-relation count is at most 5; a source relation is
missing when its composite key is absent from the destination, and orphaned
when either endpoint entity is absent from the destination. -/
theorem C9_verifyMigration :
    (∀ s d : KnowledgeGraph, s.entities.length ≠ d.entities.length →
      ∃ msg, verifyMigration s d = Except.error msg) ∧
    (∀ s d : KnowledgeGraph, s.entities.length = d.entities.length →
      s.relations.length ≠ d.relations.length →
      (verifyMigration s d = Except.ok () ↔ nonOrphanedMissingCount s d ≤ 5)) ∧
    (∀ (s d : KnowledgeGraph) (r : Relation), r ∈ missingRelations s d ↔
      r ∈ s.relations ∧ ¬ ∃ r' ∈ d.relations, relKeyString r' = relKeyString r) ∧
    (∀ (d : KnowledgeGraph) (r : Relation), relOrphaned d r = true ↔
      (¬ ∃ e ∈ d.entities, e.name = r.from_) ∨ ¬ ∃ e ∈ d.entities, e.name = r.to_) := by
  refine ⟨?_, ?_, ?_, ?_⟩
  · intro s d h
    unfold verifyMigration
    rw [if_pos h]
    exact ⟨_, rfl⟩
  · intro s d h1 h2
    unfold verifyMigration
    rw [if_neg (by simp [h1]), if_pos h2]
    constructor
    · intro hok
      by_contra hgt
      rw [if_neg hgt] at hok
      cases hok
    · intro hle
      rw [if_pos hle]
  · intro s d r
    simp [missingRelations, List.mem_filter, List.any_eq_true]
  · intro d r
    simp [relOrphaned, List.any_eq_true]

/-- C9 witness: a source with three orphaned relations (referencing the
absent entity `ghost`) and no other loss verifies successfully despite the
relation-count mismatch. -/
theorem C9_verifyMigration_witness :
    exMigSrc.entities.length = exMigDst.entities.length ∧
    exMigSrc.relations.length ≠ exMigDst.relations.length ∧
    orphanedMissingCount exMigSrc exMigDst = 3 ∧
    nonOrphanedMissingCount exMigSrc exMigDst = 0 ∧
    verifyMigration exMigSrc exMigDst = Except.ok () :=
  ⟨by decide, by decide, by decide, by decide,
    (C9_verifyMigration.2.1 exMigSrc exMigDst (by decide) (by decide)).mpr (by decide)⟩

/-! ## Claim C6 — search limit and hasMore -/

/-- C6: on both backends, a non-positive limit returns every match (and
`hasMore` is false), a positive limit returns at most `limit` hits, and
`hasMore` holds exactly when a positive limit is exceeded by the total
match count; `total` always counts all matches. -/
theorem C6_searchLimit :
    (∀ (g : KnowledgeGraph) (q : String) (limit : Int), limit ≤ 0 →
      (searchNodesJSONL g q limit).entities =
        (jsonlSortedMatches g q).map (hitOfMatched g) ∧
      (searchNodesJSONL g q limit).hasMore = false) ∧
    (∀ (g : KnowledgeGraph) (q : String) (limit : Int), 0 < limit →
      (searchNodesJSONL g q limit).entities.length ≤ limit.toNat ∧
      ((searchNodesJSONL g q limit).hasMore = true ↔
        limit < ((searchNodesJSONL g q limit).total : Int))) ∧
    (∀ (g : KnowledgeGraph) (q : String) (limit : Int),
      (searchNodesJSONL g q limit).total = (jsonlMatches g q).length) ∧
    (∀ (db : SQLiteDB) (q : String) (limit : Int), limit ≤ 0 →
      (searchNodesBasicSQLite db q limit).entities =
        (sqliteSearchMatches db q).map (fun e =>
          ⟨e.name, e.entityType, (obsOf db e.id).length, sqliteRelCount db e.id⟩) ∧
      (searchNodesBasicSQLite db q limit).hasMore = false) ∧
    (∀ (db : SQLiteDB) (q : String) (limit : Int), 0 < limit →
      (searchNodesBasicSQLite db q limit).entities.length ≤ limit.toNat ∧
      ((searchNodesBasicSQLite db q limit).hasMore = true ↔
        limit < ((searchNodesBasicSQLite db q limit).total : Int))) ∧
    (∀ (db : SQLiteDB) (q : String) (limit : Int),
      (searchNodesBasicSQLite db q limit).total = (sqliteSearchMatches db q).length) := by
  refine ⟨?_, ?_, ?_, ?_, ?_, ?_⟩
  · intro g q limit h
    have hn : ¬ 0 < limit := by omega
    simp [searchNodesJSONL, hn]
  · intro g q limit h
    simp only [searchNodesJSONL, if_pos h]
    refine ⟨?_, ?_⟩
    · simp [List.length_take]
    · simp
  · intro g q limit
    simp only [searchNodesJSONL]
    exact (List.perm_insertionSort searchLess (jsonlMatches g q)).length_eq
  · intro db q limit h
    have hn : ¬ 0 < limit := by omega
    simp [searchNodesBasicSQLite, hn]
  · intro db q limit h
    simp only [searchNodesBasicSQLite, if_pos h]
    refine ⟨?_, ?_⟩
    · simp [List.length_take]
    · simp
  · intro db q limit
    simp [searchNodesBasicSQLite]

/-- C6 witness: concrete instances of both limit regimes on both backends
(the example fixtures hold three entities, two of which match `Claude`). -/
theorem C6_searchLimit_witness :
    ((searchNodesJSONL exSearchKG "Claude" 0).hasMore = false) ∧
    ((searchNodesJSONL exSearchKG "Claude" 1).entities.length ≤ (1 : Int).toNat) ∧
    ((searchNodesJSONL exSearchKG "Claude" 1).hasMore = true) ∧
    ((searchNodesBasicSQLite exSearchDB "Claude" 0).hasMore = false) ∧
    ((searchNodesBasicSQLite exSearchDB "Claude" 1).entities.length ≤ (1 : Int).toNat) ∧
    ((searchNodesBasicSQLite exSearchDB "Claude" 1).hasMore = true) :=
  ⟨(C6_searchLimit.1 exSearchKG "Claude" 0 (by decide)).2,
   (C6_searchLimit.2.1 exSearchKG "Claude" 1 (by decide)).1,
   (C6_searchLimit.2.1 exSearchKG "Claude" 1 (by decide)).2.mpr (by decide),
   (C6_searchLimit.2.2.2.1 exSearchDB "Claude" 0 (by decide)).2,
   (C6_searchLimit.2.2.2.2.1 exSearchDB "Claude" 1 (by decide)).1,
   (C6_searchLimit.2.2.2.2.1 exSearchDB "Claude" 1 (by decide)).2.mpr (by decide)⟩

/-! ## Claim C4 — DeleteEntities removes touching relations -/

/-- C4: on both backends, `DeleteEntities` keeps exactly the entities whose
name is not listed; afterwards no stored relation has a deleted entity at
either endpoint; and a list of names matching nothing leaves the store
unchanged (there is no not-found error path — the operations are total). -/
theorem C4_deleteEntities :
    (∀ (g : KnowledgeGraph) (names : List String) (E : Entity),
      E ∈ (deleteEntitiesJSONL g names).entities ↔ E ∈ g.entities ∧ E.name ∉ names) ∧
    (∀ (g : KnowledgeGraph) (names : List String) (r : Relation),
      r ∈ (deleteEntitiesJSONL g names).relations ↔
        r ∈ g.relations ∧ r.from_ ∉ names ∧ r.to_ ∉ names) ∧
    (∀ (g : KnowledgeGraph) (names : List String),
      (∀ n ∈ names, ∀ E ∈ g.entities, E.name ≠ n) →
      deleteEntitiesJSONL g names = { g with relations := (deleteEntitiesJSONL g names).relations }) ∧
    (∀ (db : SQLiteDB) (names : List String) (E : SEntityRow),
      E ∈ (deleteEntitiesSQLite db names).entities ↔ E ∈ db.entities ∧ E.name ∉ names) ∧
    (∀ (db : SQLiteDB) (names : List String) (r : SRelRow),
      r ∈ (deleteEntitiesSQLite db names).relations →
        ∀ e ∈ db.entities, e.name ∈ names → e.id ≠ r.fromId ∧ e.id ≠ r.toId) ∧
    (∀ (db : SQLiteDB) (names : List String),
      (∀ n ∈ names, ∀ E ∈ db.entities, E.name ≠ n) →
      deleteEntitiesSQLite db names = db) := by
  refine ⟨?_, ?_, ?_, ?_, ?_, ?_⟩
  · intro g names E
    simp [deleteEntitiesJSONL, List.mem_filter]
  · intro g names r
    simp [deleteEntitiesJSONL, List.mem_filter]
  · intro g names h
    have hfe : g.entities.filter (fun e => decide (e.name ∉ names)) = g.entities :=
      List.filter_eq_self.mpr (fun e he => by
        simp only [decide_eq_true_eq]
        intro hn
        exact h e.name hn e he rfl)
    simp only [deleteEntitiesJSONL, hfe]
  · intro db names E
    simp [deleteEntitiesSQLite, List.mem_filter]
  · intro db names r hr e he hn
    simp only [deleteEntitiesSQLite, List.mem_filter, Bool.and_eq_true,
      decide_eq_true_eq] at hr
    have hid : e.id ∈ (db.entities.filter (fun x => decide (x.name ∈ names))).map
        (fun x => x.id) :=
      List.mem_map_of_mem _ (List.mem_filter.mpr ⟨he, by simpa using hn⟩)
    exact ⟨fun hEq => hr.2.1 (hEq ▸ hid), fun hEq => hr.2.2 (hEq ▸ hid)⟩
  · intro db names h
    have hdel : db.entities.filter (fun e => decide (e.name ∈ names)) = [] := by
      rw [List.filter_eq_nil_iff]
      intro e he
      simp only [decide_eq_true_eq]
      intro hn
      exact h e.name hn e he rfl
    have h1 : db.entities.filter (fun e => decide (e.name ∉ names)) = db.entities :=
      List.filter_eq_self.mpr (fun e he => by
        simp only [decide_eq_true_eq]
        intro hn
        exact h e.name hn e he rfl)
    simp only [deleteEntitiesSQLite, hdel]
    cases db with
    | mk nid ents obs rels =>
      simp only [SQLiteDB.mk.injEq, true_and]
      refine ⟨by simpa using h1, ?_, ?_⟩
      · exact List.filter_eq_self.mpr (fun o _ => by simp)
      · exact List.filter_eq_self.mpr (fun r _ => by simp)

/-- C4 witness: deleting entity `b` from the example graph removes the
`a→b` relation, and deleting an unknown name is a no-op. -/
theorem C4_deleteEntities_witness :
    ((⟨"a", "b", "knows"⟩ : Relation) ∈
        (deleteEntitiesJSONL exMigSrc ["b"]).relations ↔
      (⟨"a", "b", "knows"⟩ : Relation) ∈ exMigSrc.relations ∧
        "a" ∉ ["b"] ∧ "b" ∉ ["b"]) ∧
    deleteEntitiesSQLite exDB1 ["nobody"] = exDB1 :=
  ⟨C4_deleteEntities.2.1 exMigSrc ["b"] ⟨"a", "b", "knows"⟩,
   C4_deleteEntities.2.2.2.2.2 exDB1 ["nobody"] (by decide)⟩

/-! ## Claim C2 — CreateRelations endpoint check (counterexample) -/

/-- C2 counterexample.  The claim says relations are inserted only when
both endpoint entities currently exist.  On the JSONL backend, creating
`a → b` in the empty graph — where neither `a` nor `b` exists — stores the
relation and returns it as created. -/
theorem C2_counterexample :
    createRelationsJSONL emptyKG [⟨"a", "b", "r"⟩] =
      (⟨[], [⟨"a", "b", "r"⟩], false⟩, [⟨"a", "b", "r"⟩]) ∧
    emptyKG.entities = [] := by
  exact ⟨rfl, rfl⟩

/-! ## Claim C3 — CreateEntities return value (counterexample) -/

/-- C3 counterexample.  The claim says both backends return the post-merge
entities.  Re-creating `a` (stored observations `[x]`) with observation
`[y]` on the SQLite backend stores the merged list `[x, y]` but returns the
input entity with observations `[y]`, not the merge. -/
theorem C3_counterexample :
    (createEntitiesSQLite exDB3 [⟨"a", "t2", ["y"]⟩]).2 = [⟨"a", "t2", ["y"]⟩] ∧
    obsOf (createEntitiesSQLite exDB3 [⟨"a", "t2", ["y"]⟩]).1 1 = ["x", "y"] ∧
    (⟨"a", "t2", ["y"]⟩ : Entity) ≠ ⟨"a", "t2", ["x", "y"]⟩ := by
  exact ⟨rfl, rfl, by decide⟩

/-! ## Claim C5 — search ranking (counterexample) -/

/-- C5 counterexample.  The claim says every backend orders hits by
priority tier (name match before observation-content match), with the
spec's own example `["Claude Code", "VSCode"]`.  The SQLite basic search
orders by `created_at DESC`: with `Claude Code` created before `VSCode`,
searching `Claude` yields `["VSCode", "Claude Code"]` — content match
first, the reverse of the claimed order. -/
theorem C5_counterexample :
    (searchNodesBasicSQLite exSearchDB "Claude" 10).entities.map (fun h => h.name) =
      ["VSCode", "Claude Code"] ∧
    (["VSCode", "Claude Code"] : List String) ≠ ["Claude Code", "VSCode"] := by
  exact ⟨rfl, by decide⟩

/-! ## Claim C8 — ReadGraph summary ordering (counterexample) -/

/-- C8 counterexample.  The claim says the summary lists up to `limit`
entities most-recently-created first.  On the JSONL backend, after creating
`a` then `b`, `ReadGraph("summary", 1)` lists `a` — the oldest entity, not
the most recent (`b`). -/
theorem C8_counterexample :
    readGraphNames (readGraphJSONL exOrderKG "summary" 1) = ["a"] ∧
    exOrderKG.entities.map (fun e => e.name) = ["a", "b"] ∧
    (["a"] : List String) ≠ ["b"] := by
  exact ⟨rfl, rfl, by decide⟩

/-! ## Claim C10 — observation duplicate-freedom (counterexample) -/

/-- C10 counterexample.  The claim says every operation keeps observation
lists duplicate-free, including `CreateEntities` on a brand-new entity
whose input list contains duplicates.  The JSONL backend stores a brand-new
entity's observation list verbatim: creating `a` with observations
`[x, x]` stores the duplicate. -/
theorem C10_counterexample :
    (createEntitiesJSONL emptyKG [⟨"a", "t", ["x", "x"]⟩]).1.entities =
      [⟨"a", "t", ["x", "x"]⟩] ∧
    ¬ (["x", "x"] : List String).Nodup := by
  exact ⟨rfl, by decide⟩

/-! ## CreateRelations helper lemmas -/

/-- JSONL `CreateRelations` leaves the entity list untouched. -/
theorem createRelationsJSONL_entities (rels : List Relation) (g : KnowledgeGraph) :
    (createRelationsJSONL g rels).1.entities = g.entities := by
  induction rels generalizing g with
  | nil => rfl
  | cons rel rest ih =>
    by_cases h : rel ∈ g.relations
    · simpa [createRelationsJSONL, h] using ih g
    · simpa [createRelationsJSONL, h] using ih { g with relations := g.relations ++ [rel] }

/-- JSONL `CreateRelations` appends exactly the created relations to the
stored list. -/
theorem createRelationsJSONL_append (rels : List Relation) (g : KnowledgeGraph) :
    (createRelationsJSONL g rels).1.relations =
      g.relations ++ (createRelationsJSONL g rels).2 := by
  induction rels generalizing g with
  | nil => simp [createRelationsJSONL]
  | cons rel rest ih =>
    by_cases h : rel ∈ g.relations
    · simpa [createRelationsJSONL, h] using ih g
    · simp only [createRelationsJSONL, if_neg h]
      rw [ih { g with relations := g.relations ++ [rel] }]
      simp

/-- Every relation reported created by JSONL `CreateRelations` comes from
the input and was not previously stored. -/
theorem createRelationsJSONL_created (rels : List Relation) (g : KnowledgeGraph)
    (r : Relation) (h : r ∈ (createRelationsJSONL g rels).2) :
    r ∈ rels ∧ r ∉ g.relations := by
  induction rels generalizing g with
  | nil => cases h
  | cons rel rest ih =>
    by_cases hm : rel ∈ g.relations
    · rw [createRelationsJSONL, if_pos hm] at h
      obtain ⟨h1, h2⟩ := ih g h
      exact ⟨List.mem_cons_of_mem _ h1, h2⟩
    · rw [createRelationsJSONL, if_neg hm] at h
      rcases List.mem_cons.mp h with rfl | h
      · exact ⟨List.mem_cons_self _ _, hm⟩
      · obtain ⟨h1, h2⟩ := ih { g with relations := g.relations ++ [rel] } h
        simp only [List.mem_append, List.mem_singleton] at h2
        push_neg at h2
        exact ⟨List.mem_cons_of_mem _ h1, h2.1⟩

/-- After JSONL `CreateRelations`, every input relation is stored. -/
theorem createRelationsJSONL_mem_final (rels : List Relation) (g : KnowledgeGraph)
    (r : Relation) (h : r ∈ rels) : r ∈ (createRelationsJSONL g rels).1.relations := by
  induction rels generalizing g with
  | nil => cases h
  | cons rel rest ih =>
    by_cases hm : rel ∈ g.relations
    · rw [createRelationsJSONL, if_pos hm]
      rcases List.mem_cons.mp h with rfl | h
      · rw [createRelationsJSONL_append]
        exact List.mem_append_left _ hm
      · exact ih g h
    · rw [createRelationsJSONL, if_neg hm]
      rcases List.mem_cons.mp h with rfl | h
      · show r ∈ (createRelationsJSONL { g with relations := g.relations ++ [r] } rest).1.relations
        rw [createRelationsJSONL_append]
        exact List.mem_append_left _ (by simp)
      · exact ih { g with relations := g.relations ++ [rel] } h

/-- JSONL `CreateRelations` is a no-op (empty created list) when every input
relation is already stored. -/
theorem createRelationsJSONL_noop (rels : List Relation) (g : KnowledgeGraph)
    (h : ∀ r ∈ rels, r ∈ g.relations) : createRelationsJSONL g rels = (g, []) := by
  induction rels generalizing g with
  | nil => rfl
  | cons rel rest ih =>
    rw [createRelationsJSONL, if_pos (h rel (List.mem_cons_self _ _))]
    exact ih g (fun r hr => h r (List.mem_cons_of_mem _ hr))

/-- JSONL `CreateRelations` preserves duplicate-freedom of the stored
relation list. -/
theorem createRelationsJSONL_nodup (rels : List Relation) (g : KnowledgeGraph)
    (h : g.relations.Nodup) : (createRelationsJSONL g rels).1.relations.Nodup := by
  induction rels generalizing g with
  | nil => exact h
  | cons rel rest ih =>
    by_cases hm : rel ∈ g.relations
    · rw [createRelationsJSONL, if_pos hm]
      exact ih g h
    · rw [createRelationsJSONL, if_neg hm]
      exact ih { g with relations := g.relations ++ [rel] }
        (by simp [List.nodup_append, h, hm])

/-- `findEntityId` only depends on the entity table. -/
theorem findEntityId_congr {d₁ d₂ : SQLiteDB} (h : d₁.entities = d₂.entities)
    (n : String) : findEntityId d₁ n = findEntityId d₂ n := by
  simp [findEntityId, h]

/-- SQLite `CreateRelations` leaves entities, ids and observations
untouched. -/
theorem createRelationsSQLite_frame (rels : List Relation) (db : SQLiteDB) :
    (createRelationsSQLite db rels).1.entities = db.entities ∧
    (createRelationsSQLite db rels).1.nextId = db.nextId ∧
    (createRelationsSQLite db rels).1.observations = db.observations := by
  induction rels generalizing db with
  | nil => exact ⟨rfl, rfl, rfl⟩
  | cons rel rest ih =>
    rw [createRelationsSQLite]
    rcases hf : findEntityId db rel.from_ with _ | fid <;>
      rcases ht : findEntityId db rel.to_ with _ | tid <;>
      simp only [hf, ht]
    · exact ih db
    · exact ih db
    · exact ih db
    · by_cases hm : (⟨fid, tid, rel.relationType⟩ : SRelRow) ∈ db.relations
      · rw [if_pos hm]
        exact ih db
      · rw [if_neg hm]
        exact ih { db with relations := db.relations ++ [⟨fid, tid, rel.relationType⟩] }

/-- The stored relation rows only grow during SQLite `CreateRelations`. -/
theorem createRelationsSQLite_grow (rels : List Relation) (db : SQLiteDB) :
    ∃ tail, (createRelationsSQLite db rels).1.relations = db.relations ++ tail := by
  induction rels generalizing db with
  | nil => exact ⟨[], by simp [createRelationsSQLite]⟩
  | cons rel rest ih =>
    rw [createRelationsSQLite]
    rcases hf : findEntityId db rel.from_ with _ | fid <;>
      rcases ht : findEntityId db rel.to_ with _ | tid <;>
      simp only [hf, ht]
    · exact ih db
    · exact ih db
    · exact ih db
    · by_cases hm : (⟨fid, tid, rel.relationType⟩ : SRelRow) ∈ db.relations
      · rw [if_pos hm]
        exact ih db
      · rw [if_neg hm]
        obtain ⟨tail, htail⟩ :=
          ih { db with relations := db.relations ++ [⟨fid, tid, rel.relationType⟩] }
        exact ⟨⟨fid, tid, rel.relationType⟩ :: tail, by simpa using htail⟩

/-- Every relation reported created by SQLite `CreateRelations` comes from
the input, has both endpoints resolving to entity ids, and its row was not
previously stored. -/
theorem createRelationsSQLite_created (rels : List Relation) (db : SQLiteDB)
    (r : Relation) (h : r ∈ (createRelationsSQLite db rels).2) :
    r ∈ rels ∧ ∃ fid tid, findEntityId db r.from_ = some fid ∧
      findEntityId db r.to_ = some tid ∧
      (⟨fid, tid, r.relationType⟩ : SRelRow) ∉ db.relations := by
  induction rels generalizing db with
  | nil => cases h
  | cons rel rest ih =>
    rw [createRelationsSQLite] at h
    rcases hf : findEntityId db rel.from_ with _ | fid <;>
      rcases ht : findEntityId db rel.to_ with _ | tid <;>
      simp only [hf, ht] at h
    · obtain ⟨h1, h2⟩ := ih db h
      exact ⟨List.mem_cons_of_mem _ h1, h2⟩
    · obtain ⟨h1, h2⟩ := ih db h
      exact ⟨List.mem_cons_of_mem _ h1, h2⟩
    · obtain ⟨h1, h2⟩ := ih db h
      exact ⟨List.mem_cons_of_mem _ h1, h2⟩
    · by_cases hm : (⟨fid, tid, rel.relationType⟩ : SRelRow) ∈ db.relations
      · rw [if_pos hm] at h
        obtain ⟨h1, h2⟩ := ih db h
        exact ⟨List.mem_cons_of_mem _ h1, h2⟩
      · rw [if_neg hm] at h
        rcases List.mem_cons.mp h with rfl | h
        · exact ⟨List.mem_cons_self _ _, fid, tid, hf, ht, hm⟩
        · set db' : SQLiteDB :=
            { db with relations := db.relations ++ [⟨fid, tid, rel.relationType⟩] } with hdb'
          obtain ⟨h1, fid', tid', hf', ht', hm'⟩ := ih db' h
          refine ⟨List.mem_cons_of_mem _ h1, fid', tid', ?_, ?_, ?_⟩
          · exact (@findEntityId_congr db db' rfl r.from_).trans hf'
          · exact (@findEntityId_congr db db' rfl r.to_).trans ht'
          · intro hc
            exact hm' (by simp [hdb', hc])

/-- After SQLite `CreateRelations`, the row of any input relation whose
endpoints resolve is stored. -/
theorem createRelationsSQLite_mem_final (rels : List Relation) :
    ∀ (db : SQLiteDB) (rel : Relation), rel ∈ rels → ∀ fid tid : Nat,
      findEntityId db rel.from_ = some fid →
      findEntityId db rel.to_ = some tid →
      (⟨fid, tid, rel.relationType⟩ : SRelRow) ∈
        (createRelationsSQLite db rels).1.relations := by
  induction rels with
  | nil => intro db rel h; cases h
  | cons r rest ih =>
    intro db rel hrel fid tid hf ht
    rw [createRelationsSQLite]
    rcases hf' : findEntityId db r.from_ with _ | fid' <;>
      rcases ht' : findEntityId db r.to_ with _ | tid' <;>
      simp only [hf', ht']
    · rcases List.mem_cons.mp hrel with rfl | hrel
      · rw [hf] at hf'; cases hf'
      · exact ih db rel hrel fid tid hf ht
    · rcases List.mem_cons.mp hrel with rfl | hrel
      · rw [hf] at hf'; cases hf'
      · exact ih db rel hrel fid tid hf ht
    · rcases List.mem_cons.mp hrel with rfl | hrel
      · rw [ht] at ht'; cases ht'
      · exact ih db rel hrel fid tid hf ht
    · by_cases hm : (⟨fid', tid', r.relationType⟩ : SRelRow) ∈ db.relations
      · rw [if_pos hm]
        rcases List.mem_cons.mp hrel with rfl | hrel
        · rw [hf] at hf'
          rw [ht] at ht'
          cases hf'
          cases ht'
          obtain ⟨tail, htail⟩ := createRelationsSQLite_grow rest db
          rw [htail]
          exact List.mem_append_left _ hm
        · exact ih db rel hrel fid tid hf ht
      · rw [if_neg hm]
        set db' : SQLiteDB :=
          { db with relations := db.relations ++ [⟨fid', tid', r.relationType⟩] } with hdb'
        rcases List.mem_cons.mp hrel with rfl | hrel
        · rw [hf] at hf'
          rw [ht] at ht'
          cases hf'
          cases ht'
          obtain ⟨tail, htail⟩ := createRelationsSQLite_grow rest db'
          rw [htail]
          exact List.mem_append_left _ (by simp [hdb'])
        · refine ih db' rel hrel fid tid ?_ ?_
          · exact (@findEntityId_congr db' db rfl rel.from_).trans hf
          · exact (@findEntityId_congr db' db rfl rel.to_).trans ht

/-- SQLite `CreateRelations` is a no-op when every input relation with
resolving endpoints already has its row stored. -/
theorem createRelationsSQLite_noop (rels : List Relation) (db : SQLiteDB)
    (h : ∀ rel ∈ rels, ∀ fid tid, findEntityId db rel.from_ = some fid →
      findEntityId db rel.to_ = some tid →
      (⟨fid, tid, rel.relationType⟩ : SRelRow) ∈ db.relations) :
    createRelationsSQLite db rels = (db, []) := by
  induction rels generalizing db with
  | nil => rfl
  | cons rel rest ih =>
    rw [createRelationsSQLite]
    rcases hf : findEntityId db rel.from_ with _ | fid <;>
      rcases ht : findEntityId db rel.to_ with _ | tid <;>
      simp only [hf, ht]
    · exact ih db (fun r hr => h r (List.mem_cons_of_mem _ hr))
    · exact ih db (fun r hr => h r (List.mem_cons_of_mem _ hr))
    · exact ih db (fun r hr => h r (List.mem_cons_of_mem _ hr))
    · rw [if_pos (h rel (List.mem_cons_self _ _) fid tid hf ht)]
      exact ih db (fun r hr => h r (List.mem_cons_of_mem _ hr))

/-- SQLite `CreateRelations` preserves duplicate-freedom of the relation
rows. -/
theorem createRelationsSQLite_nodup (rels : List Relation) (db : SQLiteDB)
    (h : db.relations.Nodup) : (createRelationsSQLite db rels).1.relations.Nodup := by
  induction rels generalizing db with
  | nil => exact h
  | cons rel rest ih =>
    rw [createRelationsSQLite]
    rcases hf : findEntityId db rel.from_ with _ | fid <;>
      rcases ht : findEntityId db rel.to_ with _ | tid <;>
      simp only [hf, ht]
    · exact ih db h
    · exact ih db h
    · exact ih db h
    · by_cases hm : (⟨fid, tid, rel.relationType⟩ : SRelRow) ∈ db.relations
      · rw [if_pos hm]
        exact ih db h
      · rw [if_neg hm]
        exact ih { db with relations := db.relations ++ [⟨fid, tid, rel.relationType⟩] }
          (by simp [List.nodup_append, h, hm])

/-! ## Claim C2 — CreateRelations semantics (amended) -/

/-- C2 amended.  On both backends `CreateRelations` inserts exactly the
novel relations and returns exactly those inserted, and re-running the same
call creates nothing and changes nothing (idempotence; with a
duplicate-free store, exactly one copy remains).  The endpoint-existence
requirement holds only on the SQLite backend — the JSONL backend inserts
any novel relation regardless of whether the endpoints exist (see the
counterexample). -/
theorem C2_createRelations :
    (∀ (g : KnowledgeGraph) (rels : List Relation),
      (createRelationsJSONL g rels).1.entities = g.entities ∧
      (createRelationsJSONL g rels).1.relations =
        g.relations ++ (createRelationsJSONL g rels).2) ∧
    (∀ (g : KnowledgeGraph) (rels : List Relation) (r : Relation),
      r ∈ (createRelationsJSONL g rels).2 → r ∈ rels ∧ r ∉ g.relations) ∧
    (∀ (g : KnowledgeGraph) (rels : List Relation) (r : Relation),
      r ∈ rels → r ∈ (createRelationsJSONL g rels).1.relations) ∧
    (∀ (g : KnowledgeGraph) (rels : List Relation),
      g.relations.Nodup → (createRelationsJSONL g rels).1.relations.Nodup) ∧
    (∀ (g : KnowledgeGraph) (rels : List Relation),
      createRelationsJSONL (createRelationsJSONL g rels).1 rels =
        ((createRelationsJSONL g rels).1, [])) ∧
    (∀ (db : SQLiteDB) (rels : List Relation),
      (createRelationsSQLite db rels).1.entities = db.entities ∧
      (createRelationsSQLite db rels).1.observations = db.observations) ∧
    (∀ (db : SQLiteDB) (rels : List Relation) (r : Relation),
      r ∈ (createRelationsSQLite db rels).2 →
        r ∈ rels ∧ ∃ fid tid, findEntityId db r.from_ = some fid ∧
          findEntityId db r.to_ = some tid ∧
          (⟨fid, tid, r.relationType⟩ : SRelRow) ∉ db.relations) ∧
    (∀ (db : SQLiteDB) (rels : List Relation),
      db.relations.Nodup → (createRelationsSQLite db rels).1.relations.Nodup) ∧
    (∀ (db : SQLiteDB) (rels : List Relation),
      createRelationsSQLite (createRelationsSQLite db rels).1 rels =
        ((createRelationsSQLite db rels).1, [])) := by
  refine ⟨?_, ?_, ?_, ?_, ?_, ?_, ?_, ?_, ?_⟩
  · exact fun g rels =>
      ⟨createRelationsJSONL_entities rels g, createRelationsJSONL_append rels g⟩
  · exact fun g rels r => createRelationsJSONL_created rels g r
  · exact fun g rels r h => createRelationsJSONL_mem_final rels g r h
  · exact fun g rels h => createRelationsJSONL_nodup rels g h
  · intro g rels
    exact createRelationsJSONL_noop rels (createRelationsJSONL g rels).1
      (fun r hr => createRelationsJSONL_mem_final rels g r hr)
  · exact fun db rels =>
      ⟨(createRelationsSQLite_frame rels db).1, (createRelationsSQLite_frame rels db).2.2⟩
  · exact fun db rels r h => createRelationsSQLite_created rels db r h
  · exact fun db rels h => createRelationsSQLite_nodup rels db h
  · intro db rels
    refine createRelationsSQLite_noop rels (createRelationsSQLite db rels).1 ?_
    intro rel hrel fid tid hf ht
    have hents : (createRelationsSQLite db rels).1.entities = db.entities :=
      (createRelationsSQLite_frame rels db).1
    have hf0 : findEntityId db rel.from_ = some fid :=
      (@findEntityId_congr db (createRelationsSQLite db rels).1 hents.symm rel.from_).trans hf
    have ht0 : findEntityId db rel.to_ = some tid :=
      (@findEntityId_congr db (createRelationsSQLite db rels).1 hents.symm rel.to_).trans ht
    exact createRelationsSQLite_mem_final rels db rel hrel fid tid hf0 ht0

/-- C2 witness: creating `a → b` twice in a SQLite database holding both
entities stores one row and the second call creates nothing; the created
relation of the first call satisfies the novelty/endpoint conditions. -/
theorem C2_createRelations_witness :
    ((createRelationsSQLite
        (createRelationsSQLite exMigDB [⟨"a", "b", "likes"⟩]).1 [⟨"a", "b", "likes"⟩]) =
      ((createRelationsSQLite exMigDB [⟨"a", "b", "likes"⟩]).1, [])) ∧
    ((⟨"a", "b", "likes"⟩ : Relation) ∈ [(⟨"a", "b", "likes"⟩ : Relation)] ∧
      ∃ fid tid, findEntityId exMigDB "a" = some fid ∧
        findEntityId exMigDB "b" = some tid ∧
        (⟨fid, tid, "likes"⟩ : SRelRow) ∉ exMigDB.relations) ∧
    (createRelationsJSONL (createRelationsJSONL emptyKG [⟨"a", "b", "r"⟩]).1
        [⟨"a", "b", "r"⟩] =
      ((createRelationsJSONL emptyKG [⟨"a", "b", "r"⟩]).1, [])) := by
  refine ⟨C2_createRelations.2.2.2.2.2.2.2.2 exMigDB [⟨"a", "b", "likes"⟩], ?_, ?_⟩
  · have h := C2_createRelations.2.2.2.2.2.2.1 exMigDB [⟨"a", "b", "likes"⟩]
      ⟨"a", "b", "likes"⟩ (by decide)
    exact h
  · exact C2_createRelations.2.2.2.2.1 emptyKG [⟨"a", "b", "r"⟩]

/-! ## AddObservations helper lemmas -/

/-- The JSONL add-observations scan fails exactly when no entity has the
requested name. -/
theorem addObsToEntities_none_iff (n : String) (os : List String) (l : List Entity) :
    addObsToEntities n os l = none ↔ ∀ E ∈ l, E.name ≠ n := by
  induction l with
  | nil => simp [addObsToEntities]
  | cons x xs ih =>
    by_cases h : x.name = n
    · simp [addObsToEntities, h]
    · rw [addObsToEntities, if_neg h]
      rcases hrec : addObsToEntities n os xs with _ | p
      · simpa [h] using ih.mp hrec
      · simp only [List.mem_cons]
        constructor
        · intro hc
          cases hc
        · intro hall
          have : addObsToEntities n os xs = none :=
            ih.mpr (fun E hE => hall E (Or.inr hE))
          rw [hrec] at this
          cases this

/-- The JSONL add-observations scan preserves the entity-name listing. -/
theorem addObsToEntities_names (n : String) (os : List String) :
    ∀ (l l' : List Entity) (adds : List String),
      addObsToEntities n os l = some (l', adds) →
      l'.map (fun e => e.name) = l.map (fun e => e.name) := by
  intro l
  induction l with
  | nil => intro l' adds h; cases h
  | cons x xs ih =>
    intro l' adds h
    by_cases hx : x.name = n
    · rw [addObsToEntities, if_pos hx] at h
      cases h
      simp
    · rw [addObsToEntities, if_neg hx] at h
      rcases hrec : addObsToEntities n os xs with _ | p <;> rw [hrec] at h
      · cases h
      · cases h
        simpa using ih p.1 p.2 hrec

/-- The JSONL add-observations scan on a found entity: the first entity
with the requested name gets the input occurrences absent from its
pre-call observation list appended, and exactly those are reported. -/
theorem addObsToEntities_found (n : String) (os : List String) :
    ∀ (l : List Entity) (E : Entity),
      l.find? (fun x => decide (x.name = n)) = some E →
      ∃ pre post, l = pre ++ E :: post ∧ (∀ y ∈ pre, y.name ≠ n) ∧
        addObsToEntities n os l = some
          (pre ++ ({ E with observations :=
              E.observations ++ os.filter (fun o => decide (o ∉ E.observations)) } :: post),
           os.filter (fun o => decide (o ∉ E.observations))) := by
  intro l
  induction l with
  | nil => intro E h; cases h
  | cons x xs ih =>
    intro E h
    by_cases hx : x.name = n
    · have hE : E = x := by
        rw [List.find?] at h
        simp [hx] at h
        exact h.symm
      subst hE
      refine ⟨[], xs, rfl, by simp, ?_⟩
      rw [addObsToEntities, if_pos hx]
      simp
    · have hpx : (fun y => decide (y.name = n)) x = false := by simpa using hx
      rw [show List.find? (fun y => decide (y.name = n)) (x :: xs) =
        List.find? (fun y => decide (y.name = n)) xs by simp [List.find?, hpx]] at h
      obtain ⟨pre, post, h1, h2, h3⟩ := ih E h
      refine ⟨x :: pre, post, by simp [h1], ?_, ?_⟩
      · intro y hy
        rcases List.mem_cons.mp hy with rfl | hy
        · exact hx
        · exact h2 y hy
      · rw [addObsToEntities, if_neg hx, h3]
        simp

/-- A missing entity makes the per-entity SQLite insert loop a silent
no-op. -/
theorem addObsSQLiteOne_missing (n : String) (db : SQLiteDB)
    (h : findEntityId db n = none) (os : List String) :
    addObsSQLiteOne db n os = (db, []) := by
  induction os with
  | nil => rfl
  | cons o os ih =>
    rw [addObsSQLiteOne, h]
    exact ih

/-- Step equation: a missing entity skips the observation. -/
theorem addObsSQLiteOne_cons_none (n o : String) (os : List String) (db : SQLiteDB)
    (hf : findEntityId db n = none) :
    addObsSQLiteOne db n (o :: os) = addObsSQLiteOne db n os := by
  rw [addObsSQLiteOne, hf]

/-- Step equation: an already-stored observation conflicts and is skipped. -/
theorem addObsSQLiteOne_cons_dup (n o : String) (os : List String) (db : SQLiteDB)
    (eid : Nat) (hf : findEntityId db n = some eid)
    (hm : (⟨eid, o⟩ : SObsRow) ∈ db.observations) :
    addObsSQLiteOne db n (o :: os) = addObsSQLiteOne db n os := by
  rw [addObsSQLiteOne, hf]
  exact if_pos hm

/-- Step equation: a novel observation is inserted and recorded as added. -/
theorem addObsSQLiteOne_cons_new (n o : String) (os : List String) (db : SQLiteDB)
    (eid : Nat) (hf : findEntityId db n = some eid)
    (hm : (⟨eid, o⟩ : SObsRow) ∉ db.observations) :
    addObsSQLiteOne db n (o :: os) =
      ((addObsSQLiteOne { db with observations := db.observations ++ [⟨eid, o⟩] } n os).1,
       o :: (addObsSQLiteOne { db with observations := db.observations ++ [⟨eid, o⟩] } n os).2) := by
  rw [addObsSQLiteOne, hf]
  exact if_neg hm

/-- The SQLite per-entity insert loop only touches the observations table. -/
theorem addObsSQLiteOne_frame (n : String) :
    ∀ (os : List String) (db : SQLiteDB),
      (addObsSQLiteOne db n os).1.entities = db.entities ∧
      (addObsSQLiteOne db n os).1.nextId = db.nextId ∧
      (addObsSQLiteOne db n os).1.relations = db.relations := by
  intro os
  induction os with
  | nil => exact fun db => ⟨rfl, rfl, rfl⟩
  | cons o os ih =>
    intro db
    rcases hf : findEntityId db n with _ | eid
    · rw [addObsSQLiteOne_cons_none n o os db hf]
      exact ih db
    · by_cases hm : (⟨eid, o⟩ : SObsRow) ∈ db.observations
      · rw [addObsSQLiteOne_cons_dup n o os db eid hf hm]
        exact ih db
      · rw [addObsSQLiteOne_cons_new n o os db eid hf hm]
        exact ih { db with observations := db.observations ++ [⟨eid, o⟩] }

/-- Step equation for the JSONL batch: a missing entity aborts with the
not-found error. -/
theorem addObservationsJSONL_cons_none (g : KnowledgeGraph) (n : String)
    (os : List String) (rest : List (String × List String))
    (h : addObsToEntities n os g.entities = none) :
    addObservationsJSONL g ((n, os) :: rest) =
      .error ("entity " ++ n ++ " not found") := by
  rw [addObservationsJSONL, h]

/-- Step equation for the JSONL batch: a found entity is updated and the
batch continues. -/
theorem addObservationsJSONL_cons_some (g : KnowledgeGraph) (n : String)
    (os : List String) (rest : List (String × List String))
    (ents' : List Entity) (adds : List String)
    (h : addObsToEntities n os g.entities = some (ents', adds)) :
    addObservationsJSONL g ((n, os) :: rest) =
      match addObservationsJSONL { g with entities := ents' } rest with
      | .error msg => .error msg
      | .ok (g', added) => .ok (g', (n, adds) :: added) := by
  rw [addObservationsJSONL, h]

/-! ## Claim C1 — AddObservations (amended) -/

/-- C1 amended.  JSONL: a batch naming any missing entity fails whole with
a not-found error (and, the model being load-mutate-save, commits nothing);
a batch whose single entry names an existing entity appends exactly the
input occurrences absent from that entity's pre-call observation list and
reports them as added.  SQLite: a missing entity never fails — the call
returns with an empty added-list for that name and the database unchanged —
and no `AddObservations` call ever touches the entities table, so additions
for existing names in the same batch commit. -/
theorem C1_addObservations :
    (∀ (g : KnowledgeGraph) (pairs : List (String × List String)),
      (∃ p ∈ pairs, ∀ E ∈ g.entities, E.name ≠ p.1) →
      ∃ msg, addObservationsJSONL g pairs = .error msg) ∧
    (∀ (g : KnowledgeGraph) (n : String) (os : List String) (E : Entity),
      g.entities.find? (fun x => decide (x.name = n)) = some E →
      ∃ pre post, g.entities = pre ++ E :: post ∧ (∀ y ∈ pre, y.name ≠ n) ∧
        addObservationsJSONL g [(n, os)] = .ok
          ({ g with entities := pre ++
              (⟨E.name, E.entityType, E.observations ++
                os.filter (fun o => decide (o ∉ E.observations))⟩ : Entity) :: post },
           [(n, os.filter (fun o => decide (o ∉ E.observations)))])) ∧
    (∀ (db : SQLiteDB) (n : String) (os : List String),
      findEntityId db n = none →
      addObservationsSQLite db [(n, os)] = (db, [(n, [])])) ∧
    (∀ (db : SQLiteDB) (pairs : List (String × List String)),
      (addObservationsSQLite db pairs).1.entities = db.entities ∧
      (addObservationsSQLite db pairs).1.relations = db.relations) := by
  refine ⟨?_, ?_, ?_, ?_⟩
  · intro g pairs
    induction pairs generalizing g with
    | nil => rintro ⟨p, hp, _⟩; cases hp
    | cons hd rest ih =>
      obtain ⟨n₀, os₀⟩ := hd
      rintro ⟨p, hp, hnames⟩
      rcases hadd : addObsToEntities n₀ os₀ g.entities with _ | ⟨ents', adds⟩
      · exact ⟨_, addObservationsJSONL_cons_none g n₀ os₀ rest hadd⟩
      · rcases List.mem_cons.mp hp with rfl | hp
        · have : addObsToEntities n₀ os₀ g.entities = none :=
            (addObsToEntities_none_iff n₀ os₀ g.entities).mpr hnames
          rw [hadd] at this
          cases this
        · have hnames' : ∀ E ∈ ents', E.name ≠ p.1 := by
            intro E hE
            have hmap := addObsToEntities_names n₀ os₀ g.entities ents' adds hadd
            have : E.name ∈ ents'.map (fun e => e.name) := List.mem_map_of_mem _ hE
            rw [hmap] at this
            obtain ⟨E₀, hE₀, hname⟩ := List.mem_map.mp this
            exact hname ▸ hnames E₀ hE₀
          obtain ⟨msg, hmsg⟩ := ih { g with entities := ents' } ⟨p, hp, hnames'⟩
          refine ⟨msg, ?_⟩
          rw [addObservationsJSONL_cons_some g n₀ os₀ rest ents' adds hadd, hmsg]
  · intro g n os E hfind
    obtain ⟨pre, post, h1, h2, h3⟩ := addObsToEntities_found n os g.entities E hfind
    refine ⟨pre, post, h1, h2, ?_⟩
    rw [addObservationsJSONL, h3]
    rfl
  · intro db n os h
    rw [addObservationsSQLite, addObsSQLiteOne_missing n db h os]
    rfl
  · intro db pairs
    induction pairs generalizing db with
    | nil => exact ⟨rfl, rfl⟩
    | cons hd rest ih =>
      rw [show hd = (hd.1, hd.2) from rfl, addObservationsSQLite]
      obtain ⟨he, _, hr⟩ := addObsSQLiteOne_frame hd.1 hd.2 db
      obtain ⟨he', hr'⟩ := ih (addObsSQLiteOne db hd.1 hd.2).1
      exact ⟨he'.trans he, hr'.trans hr⟩

/-- C1 witness: instantiating the amended theorem — a JSONL batch naming
`missing` errors; a JSONL batch on the stored entity `a` (observations
`[x]`) with input `[x, y]` appends exactly `y`; SQLite with a missing name
returns unchanged with an empty added list. -/
theorem C1_addObservations_witness :
    (∃ msg, addObservationsJSONL exObsKG [("missing", ["y"])] = .error msg) ∧
    (∃ pre post, exObsKG.entities = pre ++ (⟨"a", "t", ["x"]⟩ : Entity) :: post ∧
      (∀ y ∈ pre, y.name ≠ "a") ∧
      addObservationsJSONL exObsKG [("a", ["x", "y"])] = .ok
        ({ exObsKG with entities := pre ++
            (⟨"a", "t", ["x"] ++ (["x", "y"].filter
              (fun o => decide (o ∉ (["x"] : List String))))⟩ : Entity) :: post },
         [("a", ["x", "y"].filter (fun o => decide (o ∉ (["x"] : List String))))])) ∧
    addObservationsSQLite exDB1 [("missing", ["y"])] = (exDB1, [("missing", [])]) :=
  ⟨C1_addObservations.1 exObsKG [("missing", ["y"])]
     ⟨("missing", ["y"]), by decide, by decide⟩,
   C1_addObservations.2.1 exObsKG "a" ["x", "y"] ⟨"a", "t", ["x"]⟩ (by decide),
   C1_addObservations.2.2.1 exDB1 "missing" ["y"] (by decide)⟩

/-! ## CreateEntities helper lemmas -/

/-- The JSONL upsert scan on a found entity: the first entity with the
input's name has its type replaced and observations merged; the merged
record is also returned. -/
theorem updateEntityJSONL_found (e : Entity) :
    ∀ (l : List Entity) (E : Entity),
      l.find? (fun x => decide (x.name = e.name)) = some E →
      ∃ pre post, l = pre ++ E :: post ∧ (∀ y ∈ pre, y.name ≠ e.name) ∧
        updateEntityJSONL e l = some
          (pre ++ (⟨E.name, e.entityType, mergeObs E.observations e.observations⟩ : Entity)
            :: post,
           ⟨E.name, e.entityType, mergeObs E.observations e.observations⟩) := by
  intro l
  induction l with
  | nil => intro E h; cases h
  | cons x xs ih =>
    intro E h
    by_cases hx : x.name = e.name
    · have hE : E = x := by
        rw [List.find?] at h
        simp [hx] at h
        exact h.symm
      subst hE
      refine ⟨[], xs, rfl, by simp, ?_⟩
      rw [updateEntityJSONL, if_pos hx]
      simp
    · have hpx : (fun y => decide (y.name = e.name)) x = false := by simpa using hx
      rw [show List.find? (fun y => decide (y.name = e.name)) (x :: xs) =
        List.find? (fun y => decide (y.name = e.name)) xs by simp [List.find?, hpx]] at h
      obtain ⟨pre, post, h1, h2, h3⟩ := ih E h
      refine ⟨x :: pre, post, by simp [h1], ?_, ?_⟩
      · intro y hy
        rcases List.mem_cons.mp hy with rfl | hy
        · exact hx
        · exact h2 y hy
      · rw [updateEntityJSONL, if_neg hx, h3]
        simp

/-- The JSONL upsert scan fails exactly when no entity has the input's
name. -/
theorem updateEntityJSONL_none_iff (e : Entity) (l : List Entity) :
    updateEntityJSONL e l = none ↔ ∀ x ∈ l, x.name ≠ e.name := by
  induction l with
  | nil => simp [updateEntityJSONL]
  | cons x xs ih =>
    by_cases h : x.name = e.name
    · simp [updateEntityJSONL, h]
    · rw [updateEntityJSONL, if_neg h]
      rcases hrec : updateEntityJSONL e xs with _ | p
      · simpa [h] using ih.mp hrec
      · simp only [List.mem_cons]
        constructor
        · intro hc
          cases hc
        · intro hall
          have : updateEntityJSONL e xs = none :=
            ih.mpr (fun y hy => hall y (Or.inr hy))
          rw [hrec] at this
          cases this

/-- Singleton equation for JSONL `CreateEntities`, existing-name case. -/
theorem createEntitiesJSONL_one_found (g : KnowledgeGraph) (e : Entity)
    (ents' : List Entity) (m : Entity)
    (h : updateEntityJSONL e g.entities = some (ents', m)) :
    createEntitiesJSONL g [e] = ({ g with entities := ents' }, [m]) := by
  rw [createEntitiesJSONL, h]
  rfl

/-- Singleton equation for JSONL `CreateEntities`, new-name case. -/
theorem createEntitiesJSONL_one_new (g : KnowledgeGraph) (e : Entity)
    (h : updateEntityJSONL e g.entities = none) :
    createEntitiesJSONL g [e] = ({ g with entities := g.entities ++ [e] }, [e]) := by
  rw [createEntitiesJSONL, h]
  rfl

/-- The SQLite entity upsert on a found row: the unique row with the name
keeps its id and gets the new type. -/
theorem upsertEntityRowList_found (name ty : String) :
    ∀ (l : List SEntityRow) (R : SEntityRow),
      l.find? (fun x => decide (x.name = name)) = some R →
      ∃ pre post, l = pre ++ R :: post ∧ (∀ y ∈ pre, y.name ≠ name) ∧
        upsertEntityRowList name ty l =
          some (pre ++ (⟨R.id, R.name, ty⟩ : SEntityRow) :: post, R.id) := by
  intro l
  induction l with
  | nil => intro R h; cases h
  | cons x xs ih =>
    intro R h
    by_cases hx : x.name = name
    · have hR : R = x := by
        rw [List.find?] at h
        simp [hx] at h
        exact h.symm
      subst hR
      refine ⟨[], xs, rfl, by simp, ?_⟩
      rw [upsertEntityRowList, if_pos hx]
      rfl
    · have hpx : (fun y => decide (y.name = name)) x = false := by simpa using hx
      rw [show List.find? (fun y => decide (y.name = name)) (x :: xs) =
        List.find? (fun y => decide (y.name = name)) xs by simp [List.find?, hpx]] at h
      obtain ⟨pre, post, h1, h2, h3⟩ := ih R h
      refine ⟨x :: pre, post, by simp [h1], ?_, ?_⟩
      · intro y hy
        rcases List.mem_cons.mp hy with rfl | hy
        · exact hx
        · exact h2 y hy
      · rw [upsertEntityRowList, if_neg hx, h3]
        simp

/-- The SQLite entity upsert reports no conflict exactly when the name is
absent. -/
theorem upsertEntityRowList_none_iff (name ty : String) (l : List SEntityRow) :
    upsertEntityRowList name ty l = none ↔ ∀ x ∈ l, x.name ≠ name := by
  induction l with
  | nil => simp [upsertEntityRowList]
  | cons x xs ih =>
    by_cases h : x.name = name
    · simp [upsertEntityRowList, h]
    · rw [upsertEntityRowList, if_neg h]
      rcases hrec : upsertEntityRowList name ty xs with _ | p
      · simpa [h] using ih.mp hrec
      · simp only [List.mem_cons]
        constructor
        · intro hc
          cases hc
        · intro hall
          have : upsertEntityRowList name ty xs = none :=
            ih.mpr (fun y hy => hall y (Or.inr hy))
          rw [hrec] at this
          cases this

/-- An observation row is stored exactly when its content is listed for its
entity. -/
theorem obsRow_mem_iff (db : SQLiteDB) (i : Nat) (o : String) :
    (⟨i, o⟩ : SObsRow) ∈ db.observations ↔ o ∈ obsOf db i := by
  simp only [obsOf, List.mem_map, List.mem_filter, decide_eq_true_eq]
  constructor
  · intro h
    exact ⟨⟨i, o⟩, ⟨h, rfl⟩, rfl⟩
  · rintro ⟨r, ⟨hr, hi⟩, hc⟩
    have : r = ⟨i, o⟩ := by
      cases r
      simp_all
    exact this ▸ hr

/-- An insert-or-ignore of one observation, seen through `obsOf`. -/
theorem obsOf_insertObsRow (db : SQLiteDB) (i : Nat) (o : String) :
    obsOf (insertObsRow db i o) i =
      (if o ∈ obsOf db i then obsOf db i else obsOf db i ++ [o]) := by
  unfold insertObsRow
  by_cases h : (⟨i, o⟩ : SObsRow) ∈ db.observations
  · rw [if_pos h, if_pos ((obsRow_mem_iff db i o).mp h)]
  · rw [if_neg h, if_neg (fun hc => h ((obsRow_mem_iff db i o).mpr hc))]
    simp [obsOf, List.filter_append]

/-- The insert-or-ignore loop over an observation list is exactly the JSONL
merge, seen through `obsOf`. -/
theorem obsOf_insertObsList (i : Nat) :
    ∀ (os : List String) (db : SQLiteDB),
      obsOf (insertObsList db i os) i = mergeObs (obsOf db i) os := by
  intro os
  induction os with
  | nil => intro db; rfl
  | cons o os ih =>
    intro db
    rw [insertObsList, mergeObs, ih (insertObsRow db i o)]
    congr 1
    rw [obsOf_insertObsRow]

/-- The insert-or-ignore loop only touches the observations table. -/
theorem insertObsList_frame (i : Nat) :
    ∀ (os : List String) (db : SQLiteDB),
      (insertObsList db i os).entities = db.entities ∧
      (insertObsList db i os).nextId = db.nextId ∧
      (insertObsList db i os).relations = db.relations := by
  intro os
  induction os with
  | nil => exact fun db => ⟨rfl, rfl, rfl⟩
  | cons o os ih =>
    intro db
    rw [insertObsList]
    obtain ⟨h1, h2, h3⟩ := ih (insertObsRow db i o)
    unfold insertObsRow at h1 h2 h3 ⊢
    by_cases h : (⟨i, o⟩ : SObsRow) ∈ db.observations <;>
      simp_all

/-- Singleton equation for SQLite `CreateEntities`, existing-name case. -/
theorem createEntitiesSQLite_one_found (db : SQLiteDB) (e : Entity)
    (ents' : List SEntityRow) (i : Nat)
    (h : upsertEntityRowList e.name e.entityType db.entities = some (ents', i)) :
    createEntitiesSQLite db [e] =
      (insertObsList { db with entities := ents' } i e.observations, [e]) := by
  rw [createEntitiesSQLite, h]
  rfl

/-- Singleton equation for SQLite `CreateEntities`, new-name case. -/
theorem createEntitiesSQLite_one_new (db : SQLiteDB) (e : Entity)
    (h : upsertEntityRowList e.name e.entityType db.entities = none) :
    createEntitiesSQLite db [e] =
      (insertObsList
        { db with
          entities := db.entities ++ [⟨db.nextId, e.name, e.entityType⟩],
          nextId := db.nextId + 1 } db.nextId e.observations, [e]) := by
  rw [createEntitiesSQLite, h]
  rfl

/-! ## Claim C3 — CreateEntities merge semantics (amended) -/

/-- C3 amended.  The merge keeps exactly the union of old and new
observations, stays duplicate-free when the stored list was, and preserves
the stored prefix while appending only novel values in input order.  On an
existing name the JSONL backend replaces the type, merges observations in
place and returns the *merged* entity, while the SQLite backend updates the
row type, merges the stored observation rows identically — and returns the
*input* entity (see the counterexample).  Both insert verbatim when the
name is new, and neither has a failure path for an existing name (the
modelled operations are total). -/
theorem C3_createEntities :
    (∀ (a b : List String) (x : String), x ∈ mergeObs a b ↔ x ∈ a ∨ x ∈ b) ∧
    (∀ (a b : List String), a.Nodup → (mergeObs a b).Nodup) ∧
    (∀ (a b : List String), ∃ tail, mergeObs a b = a ++ tail ∧
      ∀ x ∈ tail, x ∉ a ∧ x ∈ b) ∧
    (∀ (g : KnowledgeGraph) (e E : Entity),
      g.entities.find? (fun x => decide (x.name = e.name)) = some E →
      ∃ pre post, g.entities = pre ++ E :: post ∧ (∀ y ∈ pre, y.name ≠ e.name) ∧
        createEntitiesJSONL g [e] =
          ({ g with entities := pre ++
              (⟨E.name, e.entityType, mergeObs E.observations e.observations⟩ : Entity)
                :: post },
           [⟨E.name, e.entityType, mergeObs E.observations e.observations⟩])) ∧
    (∀ (g : KnowledgeGraph) (e : Entity), (∀ x ∈ g.entities, x.name ≠ e.name) →
      createEntitiesJSONL g [e] = ({ g with entities := g.entities ++ [e] }, [e])) ∧
    (∀ (db : SQLiteDB) (e : Entity) (R : SEntityRow),
      db.entities.find? (fun x => decide (x.name = e.name)) = some R →
      ∃ pre post, db.entities = pre ++ R :: post ∧ (∀ y ∈ pre, y.name ≠ e.name) ∧
        (createEntitiesSQLite db [e]).2 = [e] ∧
        (createEntitiesSQLite db [e]).1.entities =
          pre ++ (⟨R.id, R.name, e.entityType⟩ : SEntityRow) :: post ∧
        obsOf (createEntitiesSQLite db [e]).1 R.id =
          mergeObs (obsOf db R.id) e.observations) := by
  refine ⟨?_, ?_, ?_, ?_, ?_, ?_⟩
  · exact fun a b x => mergeObs_mem b a x
  · exact fun a b h => mergeObs_nodup b a h
  · exact fun a b => mergeObs_decomp b a
  · intro g e E hfind
    obtain ⟨pre, post, h1, h2, h3⟩ := updateEntityJSONL_found e g.entities E hfind
    exact ⟨pre, post, h1, h2, createEntitiesJSONL_one_found g e _ _ h3⟩
  · intro g e h
    exact createEntitiesJSONL_one_new g e ((updateEntityJSONL_none_iff e g.entities).mpr h)
  · intro db e R hfind
    obtain ⟨pre, post, h1, h2, h3⟩ :=
      upsertEntityRowList_found e.name e.entityType db.entities R hfind
    have heq := createEntitiesSQLite_one_found db e
      (pre ++ (⟨R.id, R.name, e.entityType⟩ : SEntityRow) :: post) R.id h3
    refine ⟨pre, post, h1, h2, by rw [heq], ?_, ?_⟩
    · rw [heq]
      exact (insertObsList_frame R.id e.observations _).1
    · rw [heq]
      exact obsOf_insertObsList R.id e.observations _

/-- C3 witness: instantiating the amended theorem — JSONL re-creation of
`a` (stored observations `[x]`) with type `t2` and observations `[y]`
returns the merged entity `⟨a, t2, [x, y]⟩`; the matching SQLite call
stores the merged observations `[x, y]` and the updated type while
returning the input entity. -/
theorem C3_createEntities_witness :
    (∃ pre post, exObsKG.entities = pre ++ (⟨"a", "t", ["x"]⟩ : Entity) :: post ∧
      (∀ y ∈ pre, y.name ≠ "a") ∧
      createEntitiesJSONL exObsKG [⟨"a", "t2", ["y"]⟩] =
        ({ exObsKG with entities := pre ++
            (⟨"a", "t2", mergeObs ["x"] ["y"]⟩ : Entity) :: post },
         [⟨"a", "t2", mergeObs ["x"] ["y"]⟩])) ∧
    (∃ pre post, exDB3.entities = pre ++ (⟨1, "a", "t"⟩ : SEntityRow) :: post ∧
      (∀ y ∈ pre, y.name ≠ "a") ∧
      (createEntitiesSQLite exDB3 [⟨"a", "t2", ["y"]⟩]).2 = [⟨"a", "t2", ["y"]⟩] ∧
      (createEntitiesSQLite exDB3 [⟨"a", "t2", ["y"]⟩]).1.entities =
        pre ++ (⟨1, "a", "t2"⟩ : SEntityRow) :: post ∧
      obsOf (createEntitiesSQLite exDB3 [⟨"a", "t2", ["y"]⟩]).1 1 =
        mergeObs (obsOf exDB3 1) ["y"]) :=
  ⟨C3_createEntities.2.2.2.1 exObsKG ⟨"a", "t2", ["y"]⟩ ⟨"a", "t", ["x"]⟩ (by decide),
   C3_createEntities.2.2.2.2.2 exDB3 ⟨"a", "t2", ["y"]⟩ ⟨1, "a", "t"⟩ (by decide)⟩

/-! ## Claim C5 — search ranking (amended) -/

instance : IsTotal MatchedEntity searchLess where
  total a b := by
    unfold searchLess
    rcases Nat.lt_trichotomy a.priority b.priority with h | h | h
    · exact Or.inr (Or.inl h)
    · rcases le_total a.entity.name b.entity.name with hn | hn
      · exact Or.inl (Or.inr ⟨h, hn⟩)
      · exact Or.inr (Or.inr ⟨h.symm, hn⟩)
    · exact Or.inl (Or.inl h)

instance : IsTrans MatchedEntity searchLess where
  trans a b c hab hbc := by
    unfold searchLess at hab hbc ⊢
    rcases hab with h1 | ⟨h1, hn1⟩
    · rcases hbc with h2 | ⟨h2, hn2⟩
      · exact Or.inl (h2.trans h1)
      · exact Or.inl (h2 ▸ h1)
    · rcases hbc with h2 | ⟨h2, hn2⟩
      · exact Or.inl (h1 ▸ h2)
      · exact Or.inr ⟨h1.trans h2, hn1.trans hn2⟩

/-- C5 amended.  The JSONL search output is sorted by the comparator
`searchLess` — strictly higher priority tier first, ties broken by
ascending entity name — and its hit list is the (possibly truncated)
projection of that sorted match list; on the spec's own example the JSONL
backend does return `["Claude Code", "VSCode"]`.  The SQLite basic search
instead returns its matches in descending creation order (the reverse of
the stored entity order), with no priority classification (see the
counterexample for the reversed example output). -/
theorem C5_searchRanking :
    (∀ (g : KnowledgeGraph) (q : String),
      List.Sorted searchLess (jsonlSortedMatches g q)) ∧
    (∀ (g : KnowledgeGraph) (q : String) (limit : Int),
      (searchNodesJSONL g q limit).entities =
        ((if 0 < limit then (jsonlSortedMatches g q).take limit.toNat
          else jsonlSortedMatches g q).map (hitOfMatched g))) ∧
    ((searchNodesJSONL exSearchKG "Claude" 10).entities.map (fun h => h.name) =
      ["Claude Code", "VSCode"]) ∧
    (∀ (db : SQLiteDB) (q : String) (limit : Int),
      (searchNodesBasicSQLite db q limit).entities.map (fun e => e.name) =
        ((if 0 < limit then (sqliteSearchMatches db q).take limit.toNat
          else sqliteSearchMatches db q).map (fun e => e.name))) := by
  refine ⟨?_, ?_, ?_, ?_⟩
  · intro g q
    exact List.sorted_insertionSort searchLess (jsonlMatches g q)
  · intro g q limit
    rfl
  · rfl
  · intro db q limit
    simp [searchNodesBasicSQLite]

/-! ## OpenNodes helper lemmas -/

/-- Characterisation of the relation endpoint join. -/
theorem relationOfRow_some_iff (db : SQLiteDB) (r : SRelRow) (rel : Relation) :
    relationOfRow db r = some rel ↔
      ∃ f t, db.entities.find? (fun e => decide (e.id = r.fromId)) = some f ∧
        db.entities.find? (fun e => decide (e.id = r.toId)) = some t ∧
        rel = ⟨f.name, t.name, r.relationType⟩ := by
  unfold relationOfRow
  rcases hf : db.entities.find? (fun e => decide (e.id = r.fromId)) with _ | f <;>
    rcases ht : db.entities.find? (fun e => decide (e.id = r.toId)) with _ | t <;>
    simp [hf, ht]
  exact eq_comm

/-- With distinct ids, an entity row's id is among a filtered id list
exactly when the row itself passes the filter. -/
theorem row_id_mem_filter_iff (db : SQLiteDB)
    (hnd : (db.entities.map (fun e => e.id)).Nodup)
    (p : SEntityRow → Bool) (f : SEntityRow) (hf : f ∈ db.entities) :
    (f.id ∈ (db.entities.filter p).map (fun e => e.id)) ↔ p f = true := by
  constructor
  · intro h
    obtain ⟨row, hrow, hid⟩ := List.mem_map.mp h
    have hrow' := List.mem_filter.mp hrow
    have : row = f :=
      List.inj_on_of_nodup_map hnd hrow'.1 hf hid
    exact this ▸ hrow'.2
  · intro h
    exact List.mem_map_of_mem _ (List.mem_filter.mpr ⟨hf, h⟩)

/-! ## Claim C7 — OpenNodes semantics -/

/-- C7: on both backends `OpenNodes` returns exactly the entities whose
name is requested — each with its observation list capped at 100 entries —
sets the graph-level truncated flag exactly when some requested entity has
more than 100 observations, and returns exactly the (name-resolved)
relations with at least one endpoint among the requested names. -/
theorem C7_openNodes :
    (∀ (e : Entity), capObs e =
      { e with observations := e.observations.take maxObservationsPerEntity }) ∧
    (∀ (g : KnowledgeGraph) (names : List String) (E : Entity),
      E ∈ (openNodesJSONL g names).entities ↔
        ∃ E₀ ∈ g.entities, E₀.name ∈ names ∧ E = capObs E₀) ∧
    (∀ (g : KnowledgeGraph) (names : List String),
      (openNodesJSONL g names).truncated = true ↔
        ∃ E₀ ∈ g.entities, E₀.name ∈ names ∧
          maxObservationsPerEntity < E₀.observations.length) ∧
    (∀ (g : KnowledgeGraph) (names : List String) (r : Relation),
      r ∈ (openNodesJSONL g names).relations ↔
        r ∈ g.relations ∧ (r.from_ ∈ names ∨ r.to_ ∈ names)) ∧
    (∀ (db : SQLiteDB) (names : List String) (E : Entity),
      E ∈ (openNodesSQLite db names).entities ↔
        ∃ row ∈ db.entities, row.name ∈ names ∧
          E = ⟨row.name, row.entityType,
            (obsOf db row.id).take maxObservationsPerEntity⟩) ∧
    (∀ (db : SQLiteDB) (names : List String),
      (openNodesSQLite db names).truncated = true ↔
        ∃ row ∈ db.entities, row.name ∈ names ∧
          maxObservationsPerEntity < (obsOf db row.id).length) ∧
    (∀ (db : SQLiteDB) (names : List String) (rel : Relation), db.WF →
      (rel ∈ (openNodesSQLite db names).relations ↔
        ∃ r ∈ db.relations, relationOfRow db r = some rel ∧
          (rel.from_ ∈ names ∨ rel.to_ ∈ names))) := by
  refine ⟨capObs_eq_take, ?_, ?_, ?_, ?_, ?_, ?_⟩
  · intro g names E
    unfold openNodesJSONL
    by_cases hn : names = []
    · simp [hn]
    · rw [if_neg hn]
      simp only [List.mem_map, List.mem_filter, decide_eq_true_eq]
      constructor
      · rintro ⟨E₀, ⟨h1, h2⟩, rfl⟩
        exact ⟨E₀, h1, h2, rfl⟩
      · rintro ⟨E₀, h1, h2, rfl⟩
        exact ⟨E₀, ⟨h1, h2⟩, rfl⟩
  · intro g names
    unfold openNodesJSONL
    by_cases hn : names = []
    · simp [hn]
    · rw [if_neg hn]
      simp [List.any_eq_true, List.mem_filter]
  · intro g names r
    unfold openNodesJSONL
    by_cases hn : names = []
    · simp [hn]
    · rw [if_neg hn]
      simp [List.mem_filter]
  · intro db names E
    unfold openNodesSQLite
    by_cases hn : names = []
    · simp [hn]
    · rw [if_neg hn]
      simp only [List.mem_map, List.mem_filter, decide_eq_true_eq]
      constructor
      · rintro ⟨row, ⟨h1, h2⟩, rfl⟩
        exact ⟨row, h1, h2, rfl⟩
      · rintro ⟨row, h1, h2, rfl⟩
        exact ⟨row, ⟨h1, h2⟩, rfl⟩
  · intro db names
    unfold openNodesSQLite
    by_cases hn : names = []
    · simp [hn]
    · rw [if_neg hn]
      simp [List.any_eq_true, List.mem_filter]
  · intro db names rel hwf
    obtain ⟨hids, _, _, _⟩ := hwf
    unfold openNodesSQLite
    by_cases hn : names = []
    · simp [hn]
    · rw [if_neg hn]
      simp only [List.mem_filterMap, List.mem_filter, Bool.or_eq_true, decide_eq_true_eq]
      constructor
      · rintro ⟨r, ⟨hr, hid⟩, hjoin⟩
        refine ⟨r, hr, hjoin, ?_⟩
        obtain ⟨f, t, hfind, htind, rfl⟩ := (relationOfRow_some_iff db r rel).mp hjoin
        have hfmem := List.mem_of_find?_eq_some hfind
        have hfid : f.id = r.fromId := by
          simpa using List.find?_some hfind
        have htmem := List.mem_of_find?_eq_some htind
        have htid : t.id = r.toId := by
          simpa using List.find?_some htind
        rcases hid with hid | hid
        · left
          have := (row_id_mem_filter_iff db hids
            (fun e => decide (e.name ∈ names)) f hfmem).mp (by rw [hfid]; exact hid)
          simpa using this
        · right
          have := (row_id_mem_filter_iff db hids
            (fun e => decide (e.name ∈ names)) t htmem).mp (by rw [htid]; exact hid)
          simpa using this
      · rintro ⟨r, hr, hjoin, hnames⟩
        refine ⟨r, ⟨hr, ?_⟩, hjoin⟩
        obtain ⟨f, t, hfind, htind, rfl⟩ := (relationOfRow_some_iff db r rel).mp hjoin
        have hfmem := List.mem_of_find?_eq_some hfind
        have hfid : f.id = r.fromId := by
          simpa using List.find?_some hfind
        have htmem := List.mem_of_find?_eq_some htind
        have htid : t.id = r.toId := by
          simpa using List.find?_some htind
        rcases hnames with hname | hname
        · left
          rw [← hfid]
          exact (row_id_mem_filter_iff db hids
            (fun e => decide (e.name ∈ names)) f hfmem).mpr (by simpa using hname)
        · right
          rw [← htid]
          exact (row_id_mem_filter_iff db hids
            (fun e => decide (e.name ∈ names)) t htmem).mpr (by simpa using hname)

set_option maxRecDepth 8000 in
/-- C7 witness: the 150-observation entity comes back with exactly 100
observations and the truncated flag set; a stored SQLite relation is
returned when one endpoint is requested. -/
theorem C7_openNodes_witness :
    (capObs exBigEntity ∈ (openNodesJSONL exBigKG ["big"]).entities) ∧
    ((capObs exBigEntity).observations.length = 100) ∧
    (exBigEntity.observations.length = 150) ∧
    ((openNodesJSONL exBigKG ["big"]).truncated = true) ∧
    ((⟨"a", "b", "knows"⟩ : Relation) ∈ (openNodesSQLite exRelDB ["a"]).relations) :=
  ⟨(C7_openNodes.2.1 exBigKG ["big"] (capObs exBigEntity)).mpr
     ⟨exBigEntity, by decide, by decide, rfl⟩,
   by decide,
   by decide,
   (C7_openNodes.2.2.1 exBigKG ["big"]).mpr
     ⟨exBigEntity, by decide, by decide, by decide⟩,
   (C7_openNodes.2.2.2.2.2.2 exRelDB ["a"] ⟨"a", "b", "knows"⟩
       ⟨by decide, by decide, by decide, by decide⟩).mpr
     ⟨⟨1, 2, "knows"⟩, by decide, by decide, by decide⟩⟩

/-! ## Claim C8 — ReadGraph (amended) -/

/-- C8 amended.  On both backends mode `full` returns the complete graph
and any other mode a summary with the total counts, per-type histograms,
at most `limit` listed entities and `hasMore = totalEntities > limit`.
The SQLite summary lists entities most-recently-created first (the reverse
of the stored creation order); the JSONL summary lists the first `limit`
entities in stored creation order — oldest first (see the counterexample). -/
theorem C8_readGraph :
    (∀ (g : KnowledgeGraph) (limit : Int), readGraphJSONL g "full" limit = .full g) ∧
    (∀ (g : KnowledgeGraph) (mode : String) (limit : Int), mode ≠ "full" →
      readGraphJSONL g mode limit = .summary (jsonlSummary g limit)) ∧
    (∀ (g : KnowledgeGraph) (limit : Int),
      (jsonlSummary g limit).totalEntities = g.entities.length ∧
      (jsonlSummary g limit).totalRelations = g.relations.length ∧
      (∀ t, (jsonlSummary g limit).entityTypes t =
        (g.entities.filter (fun e => decide (e.entityType = t))).length) ∧
      (∀ t, (jsonlSummary g limit).relationTypes t =
        (g.relations.filter (fun r => decide (r.relationType = t))).length) ∧
      (jsonlSummary g limit).entities =
        (g.entities.take limit.toNat).map (fun e => ⟨e.name, e.entityType⟩) ∧
      (jsonlSummary g limit).entities.length ≤ limit.toNat ∧
      ((jsonlSummary g limit).hasMore = true ↔ limit < (g.entities.length : Int))) ∧
    (∀ (db : SQLiteDB) (limit : Int),
      readGraphSQLite db "full" limit = .full (readGraphFullSQLite db)) ∧
    (∀ (db : SQLiteDB) (mode : String) (limit : Int), mode ≠ "full" →
      readGraphSQLite db mode limit = .summary (readGraphSummarySQLite db limit)) ∧
    (∀ (db : SQLiteDB) (limit : Int),
      (readGraphSummarySQLite db limit).totalEntities = db.entities.length ∧
      (readGraphSummarySQLite db limit).totalRelations = db.relations.length ∧
      (∀ t, (readGraphSummarySQLite db limit).entityTypes t =
        (db.entities.filter (fun e => decide (e.entityType = t))).length) ∧
      (∀ t, (readGraphSummarySQLite db limit).relationTypes t =
        (db.relations.filter (fun r => decide (r.relationType = t))).length) ∧
      (readGraphSummarySQLite db limit).entities =
        (sqlLimit limit db.entities.reverse).map (fun e => ⟨e.name, e.entityType⟩) ∧
      (0 ≤ limit → (readGraphSummarySQLite db limit).entities.length ≤ limit.toNat) ∧
      ((readGraphSummarySQLite db limit).hasMore = true ↔
        limit < (db.entities.length : Int))) := by
  refine ⟨?_, ?_, ?_, ?_, ?_, ?_⟩
  · intro g limit
    rfl
  · intro g mode limit h
    unfold readGraphJSONL
    rw [if_neg h]
  · intro g limit
    refine ⟨rfl, rfl, fun t => rfl, fun t => rfl, rfl, ?_, by simp [jsonlSummary]⟩
    simp [jsonlSummary, List.length_take]
  · intro db limit
    rfl
  · intro db mode limit h
    unfold readGraphSQLite
    rw [if_neg h]
  · intro db limit
    refine ⟨rfl, rfl, fun t => rfl, fun t => rfl, rfl, ?_, by simp [readGraphSummarySQLite]⟩
    intro hl
    have : ¬ limit < 0 := by omega
    simp [readGraphSummarySQLite, sqlLimit, this, List.length_take]

/-- C8 witness: the summary branches instantiated — `summary` mode on both
backends, and the SQLite entity-list bound at limit 1. -/
theorem C8_readGraph_witness :
    readGraphJSONL exOrderKG "summary" 1 = .summary (jsonlSummary exOrderKG 1) ∧
    readGraphSQLite exMigDB "summary" 1 = .summary (readGraphSummarySQLite exMigDB 1) ∧
    (readGraphSummarySQLite exMigDB 1).entities.length ≤ (1 : Int).toNat :=
  ⟨C8_readGraph.2.1 exOrderKG "summary" 1 (by decide),
   C8_readGraph.2.2.2.2.1 exMigDB "summary" 1 (by decide),
   (C8_readGraph.2.2.2.2.2 exMigDB 1).2.2.2.2.2.1 (by decide)⟩

/-! ## Duplicate-freedom helper lemmas -/

/-- A fold preserves any invariant its step preserves. -/
theorem foldl_preserves {α : Type} {β : Type} (f : β → α → β) (P : β → Prop)
    (h : ∀ b a, P b → P (f b a)) : ∀ (l : List α) (b : β), P b → P (l.foldl f b) := by
  intro l
  induction l with
  | nil => exact fun b hb => hb
  | cons a l ih => exact fun b hb => ih (f b a) (h b a hb)

/-- The JSONL entity upsert keeps observation lists duplicate-free. -/
theorem updateEntityJSONL_nodup (e : Entity) :
    ∀ (l l' : List Entity) (m : Entity),
      updateEntityJSONL e l = some (l', m) →
      (∀ E ∈ l, E.observations.Nodup) → ∀ E ∈ l', E.observations.Nodup := by
  intro l
  induction l with
  | nil => intro l' m h; cases h
  | cons x xs ih =>
    intro l' m h hl
    by_cases hx : x.name = e.name
    · rw [updateEntityJSONL, if_pos hx] at h
      cases h
      intro E hE
      rcases List.mem_cons.mp hE with rfl | hE
      · exact mergeObs_nodup e.observations x.observations (hl x (List.mem_cons_self _ _))
      · exact hl E (List.mem_cons_of_mem _ hE)
    · rw [updateEntityJSONL, if_neg hx] at h
      rcases hrec : updateEntityJSONL e xs with _ | p <;> rw [hrec] at h
      · cases h
      · cases h
        intro E hE
        rcases List.mem_cons.mp hE with rfl | hE
        · exact hl E (List.mem_cons_self _ _)
        · exact ih p.1 p.2 (by rw [hrec]) (fun y hy => hl y (List.mem_cons_of_mem _ hy)) E hE

/-- JSONL `CreateEntities` keeps observation lists duplicate-free when the
incoming entities' lists are duplicate-free. -/
theorem createEntitiesJSONL_nodupObs :
    ∀ (es : List Entity) (g : KnowledgeGraph),
      (∀ E ∈ g.entities, E.observations.Nodup) →
      (∀ e ∈ es, e.observations.Nodup) →
      ∀ E ∈ (createEntitiesJSONL g es).1.entities, E.observations.Nodup := by
  intro es
  induction es with
  | nil => exact fun g hg _ => hg
  | cons e rest ih =>
    intro g hg hes
    rcases hup : updateEntityJSONL e g.entities with _ | p
    · rw [createEntitiesJSONL, hup]
      refine ih { g with entities := g.entities ++ [e] } ?_
        (fun x hx => hes x (List.mem_cons_of_mem _ hx))
      intro E hE
      rcases List.mem_append.mp hE with hE | hE
      · exact hg E hE
      · rw [List.mem_singleton.mp hE]
        exact hes e (List.mem_cons_self _ _)
    · rw [createEntitiesJSONL, hup]
      refine ih { g with entities := p.1 } ?_
        (fun x hx => hes x (List.mem_cons_of_mem _ hx))
      exact updateEntityJSONL_nodup e g.entities p.1 p.2 (by rw [hup]) hg

/-- The JSONL add-observations scan keeps observation lists duplicate-free
when the incoming list is duplicate-free. -/
theorem addObsToEntities_nodup (n : String) (os : List String) :
    ∀ (l l' : List Entity) (adds : List String),
      addObsToEntities n os l = some (l', adds) →
      (∀ E ∈ l, E.observations.Nodup) → os.Nodup →
      ∀ E ∈ l', E.observations.Nodup := by
  intro l
  induction l with
  | nil => intro l' adds h; cases h
  | cons x xs ih =>
    intro l' adds h hl hos
    by_cases hx : x.name = n
    · rw [addObsToEntities, if_pos hx] at h
      cases h
      intro E hE
      rcases List.mem_cons.mp hE with rfl | hE
      · refine List.nodup_append.mpr
          ⟨hl x (List.mem_cons_self _ _), hos.filter _, ?_⟩
        intro a ha haf
        have := (List.mem_filter.mp haf).2
        simp only [decide_eq_true_eq] at this
        exact this ha
      · exact hl E (List.mem_cons_of_mem _ hE)
    · rw [addObsToEntities, if_neg hx] at h
      rcases hrec : addObsToEntities n os xs with _ | p <;> rw [hrec] at h
      · cases h
      · cases h
        intro E hE
        rcases List.mem_cons.mp hE with rfl | hE
        · exact hl E (List.mem_cons_self _ _)
        · exact ih p.1 p.2 (by rw [hrec])
            (fun y hy => hl y (List.mem_cons_of_mem _ hy)) hos E hE

/-- JSONL `AddObservations` keeps observation lists duplicate-free when
each incoming list is duplicate-free. -/
theorem addObservationsJSONL_nodup :
    ∀ (pairs : List (String × List String)) (g g' : KnowledgeGraph)
      (added : List (String × List String)),
      addObservationsJSONL g pairs = .ok (g', added) →
      (∀ E ∈ g.entities, E.observations.Nodup) →
      (∀ p ∈ pairs, (p.2 : List String).Nodup) →
      ∀ E ∈ g'.entities, E.observations.Nodup := by
  intro pairs
  induction pairs with
  | nil =>
    intro g g' added h hg _
    cases h
    exact hg
  | cons hd rest ih =>
    intro g g' added h hg hps
    obtain ⟨n₀, os₀⟩ := hd
    rcases hadd : addObsToEntities n₀ os₀ g.entities with _ | ⟨ents', adds⟩
    · rw [addObservationsJSONL_cons_none g n₀ os₀ rest hadd] at h
      cases h
    · rw [addObservationsJSONL_cons_some g n₀ os₀ rest ents' adds hadd] at h
      rcases hrec : addObservationsJSONL { g with entities := ents' } rest
        with msg | ⟨g2, added2⟩ <;> rw [hrec] at h
      · cases h
      · have hpair : g2 = g' ∧ (n₀, adds) :: added2 = added := by
          simpa using h
        obtain ⟨hg2, -⟩ := hpair
        subst hg2
        refine ih { g with entities := ents' } g2 added2 hrec ?_
          (fun p hp => hps p (List.mem_cons_of_mem _ hp))
        exact addObsToEntities_nodup n₀ os₀ g.entities ents' adds hadd hg
          (hps (n₀, os₀) (List.mem_cons_self _ _))

/-- The JSONL per-entity observation delete keeps lists duplicate-free. -/
theorem deleteObsFromEntities_nodup (n : String) (obs : List String) :
    ∀ (l : List Entity), (∀ E ∈ l, E.observations.Nodup) →
      ∀ E ∈ deleteObsFromEntities n obs l, E.observations.Nodup := by
  intro l
  induction l with
  | nil => intro _ E hE; cases hE
  | cons x xs ih =>
    intro hl E hE
    rw [deleteObsFromEntities] at hE
    by_cases hx : x.name = n
    · rw [if_pos hx] at hE
      rcases List.mem_cons.mp hE with rfl | hE
      · exact (hl x (List.mem_cons_self _ _)).filter _
      · exact hl E (List.mem_cons_of_mem _ hE)
    · rw [if_neg hx] at hE
      rcases List.mem_cons.mp hE with rfl | hE
      · exact hl E (List.mem_cons_self _ _)
      · exact ih (fun y hy => hl y (List.mem_cons_of_mem _ hy)) E hE

/-- One insert-or-ignore keeps the observation rows duplicate-free. -/
theorem insertObsRow_nodup (db : SQLiteDB) (i : Nat) (o : String)
    (h : db.observations.Nodup) : (insertObsRow db i o).observations.Nodup := by
  unfold insertObsRow
  by_cases hm : (⟨i, o⟩ : SObsRow) ∈ db.observations
  · rwa [if_pos hm]
  · rw [if_neg hm]
    simp [List.nodup_append, h, hm]

/-- The insert-or-ignore loop keeps the observation rows duplicate-free. -/
theorem insertObsList_nodup (i : Nat) :
    ∀ (os : List String) (db : SQLiteDB),
      db.observations.Nodup → (insertObsList db i os).observations.Nodup := by
  intro os
  induction os with
  | nil => exact fun db h => h
  | cons o os ih =>
    intro db h
    rw [insertObsList]
    exact ih (insertObsRow db i o) (insertObsRow_nodup db i o h)

/-- Step equation for SQLite `CreateEntities`, existing-name case. -/
theorem createEntitiesSQLite_cons_found (db : SQLiteDB) (e : Entity)
    (rest : List Entity) (ents' : List SEntityRow) (i : Nat)
    (h : upsertEntityRowList e.name e.entityType db.entities = some (ents', i)) :
    createEntitiesSQLite db (e :: rest) =
      ((createEntitiesSQLite
          (insertObsList { db with entities := ents' } i e.observations) rest).1,
       e :: (createEntitiesSQLite
          (insertObsList { db with entities := ents' } i e.observations) rest).2) := by
  rw [createEntitiesSQLite, h]

/-- Step equation for SQLite `CreateEntities`, new-name case. -/
theorem createEntitiesSQLite_cons_new (db : SQLiteDB) (e : Entity)
    (rest : List Entity)
    (h : upsertEntityRowList e.name e.entityType db.entities = none) :
    createEntitiesSQLite db (e :: rest) =
      ((createEntitiesSQLite
          (insertObsList
            { db with
              entities := db.entities ++ [⟨db.nextId, e.name, e.entityType⟩],
              nextId := db.nextId + 1 } db.nextId e.observations) rest).1,
       e :: (createEntitiesSQLite
          (insertObsList
            { db with
              entities := db.entities ++ [⟨db.nextId, e.name, e.entityType⟩],
              nextId := db.nextId + 1 } db.nextId e.observations) rest).2) := by
  rw [createEntitiesSQLite, h]

/-- SQLite `CreateEntities` keeps the observation rows duplicate-free —
with no precondition on the input (the UNIQUE constraint deduplicates). -/
theorem createEntitiesSQLite_nodupObs :
    ∀ (es : List Entity) (db : SQLiteDB),
      db.observations.Nodup → (createEntitiesSQLite db es).1.observations.Nodup := by
  intro es
  induction es with
  | nil => exact fun db h => h
  | cons e rest ih =>
    intro db h
    rcases hup : upsertEntityRowList e.name e.entityType db.entities with _ | ⟨ents', i⟩
    · rw [createEntitiesSQLite_cons_new db e rest hup]
      exact ih _ (insertObsList_nodup db.nextId e.observations _ h)
    · rw [createEntitiesSQLite_cons_found db e rest ents' i hup]
      exact ih _ (insertObsList_nodup i e.observations _ h)

/-- The SQLite per-entity observation insert loop keeps the rows
duplicate-free, with no precondition on the input. -/
theorem addObsSQLiteOne_nodup (n : String) :
    ∀ (os : List String) (db : SQLiteDB),
      db.observations.Nodup → (addObsSQLiteOne db n os).1.observations.Nodup := by
  intro os
  induction os with
  | nil => exact fun db h => h
  | cons o os ih =>
    intro db h
    rcases hf : findEntityId db n with _ | eid
    · rw [addObsSQLiteOne_cons_none n o os db hf]
      exact ih db h
    · by_cases hm : (⟨eid, o⟩ : SObsRow) ∈ db.observations
      · rw [addObsSQLiteOne_cons_dup n o os db eid hf hm]
        exact ih db h
      · rw [addObsSQLiteOne_cons_new n o os db eid hf hm]
        exact ih { db with observations := db.observations ++ [⟨eid, o⟩] }
          (by simp [List.nodup_append, h, hm])

/-- SQLite `AddObservations` keeps the observation rows duplicate-free. -/
theorem addObservationsSQLite_nodup :
    ∀ (pairs : List (String × List String)) (db : SQLiteDB),
      db.observations.Nodup → (addObservationsSQLite db pairs).1.observations.Nodup := by
  intro pairs
  induction pairs with
  | nil => exact fun db h => h
  | cons hd rest ih =>
    intro db h
    rw [show hd = (hd.1, hd.2) from rfl, addObservationsSQLite]
    exact ih _ (addObsSQLiteOne_nodup hd.1 hd.2 db h)

/-- One SQLite observation DELETE keeps the rows duplicate-free. -/
theorem deleteObsRowSQLite_nodup (db : SQLiteDB) (name o : String)
    (h : db.observations.Nodup) : (deleteObsRowSQLite db name o).observations.Nodup := by
  unfold deleteObsRowSQLite
  rcases hf : findEntityId db name with _ | eid
  · exact h
  · exact h.filter _

/-- SQLite `DeleteObservations` keeps the rows duplicate-free. -/
theorem deleteObservationsSQLite_nodup (ds : List ObservationDeletion) (db : SQLiteDB)
    (h : db.observations.Nodup) :
    (deleteObservationsSQLite db ds).observations.Nodup := by
  unfold deleteObservationsSQLite
  refine foldl_preserves _ (fun d => d.observations.Nodup) ?_ ds db h
  intro b d hb
  exact foldl_preserves _ (fun d => d.observations.Nodup)
    (fun b' o hb' => deleteObsRowSQLite_nodup b' d.entityName o hb') d.observations b hb

/-- Per-entity observation contents are duplicate-free whenever the rows
are (the UNIQUE(entity_id, content) invariant). -/
theorem obsOf_nodup (db : SQLiteDB) (i : Nat) (h : db.observations.Nodup) :
    (obsOf db i).Nodup := by
  unfold obsOf
  refine List.Nodup.map_on ?_ (h.filter _)
  intro x hx y hy hxy
  have hxi := (List.mem_filter.mp hx).2
  have hyi := (List.mem_filter.mp hy).2
  simp only [decide_eq_true_eq] at hxi hyi
  cases x
  cases y
  simp_all

/-! ## Claim C10 — observation duplicate-freedom (amended) -/

/-- C10 amended.  The SQLite backend preserves duplicate-free observation
lists under every operation with no precondition on the inputs (the
UNIQUE(entity_id, content) insert-or-ignore semantics deduplicate), and the
per-entity content lists inherit duplicate-freedom from the row invariant.
The JSONL backend preserves the invariant under all operations only when
the incoming observation lists are themselves duplicate-free; with
duplicated inputs `CreateEntities` stores a brand-new entity verbatim and
`AddObservations` appends each occurrence absent from the pre-call list
(see the counterexample). -/
theorem C10_noDupObservations :
    (∀ (g : KnowledgeGraph) (es : List Entity),
      (∀ E ∈ g.entities, E.observations.Nodup) →
      (∀ e ∈ es, e.observations.Nodup) →
      ∀ E ∈ (createEntitiesJSONL g es).1.entities, E.observations.Nodup) ∧
    (∀ (g g' : KnowledgeGraph) (pairs added : List (String × List String)),
      addObservationsJSONL g pairs = .ok (g', added) →
      (∀ E ∈ g.entities, E.observations.Nodup) →
      (∀ p ∈ pairs, (p.2 : List String).Nodup) →
      ∀ E ∈ g'.entities, E.observations.Nodup) ∧
    (∀ (g : KnowledgeGraph) (names : List String),
      (∀ E ∈ g.entities, E.observations.Nodup) →
      ∀ E ∈ (deleteEntitiesJSONL g names).entities, E.observations.Nodup) ∧
    (∀ (g : KnowledgeGraph) (ds : List ObservationDeletion),
      (∀ E ∈ g.entities, E.observations.Nodup) →
      ∀ E ∈ (deleteObservationsJSONL g ds).entities, E.observations.Nodup) ∧
    (∀ (g : KnowledgeGraph) (rels : List Relation),
      (∀ E ∈ g.entities, E.observations.Nodup) →
      ∀ E ∈ (createRelationsJSONL g rels).1.entities, E.observations.Nodup) ∧
    (∀ (db : SQLiteDB) (es : List Entity), db.observations.Nodup →
      (createEntitiesSQLite db es).1.observations.Nodup) ∧
    (∀ (db : SQLiteDB) (pairs : List (String × List String)), db.observations.Nodup →
      (addObservationsSQLite db pairs).1.observations.Nodup) ∧
    (∀ (db : SQLiteDB) (names : List String), db.observations.Nodup →
      (deleteEntitiesSQLite db names).observations.Nodup) ∧
    (∀ (db : SQLiteDB) (ds : List ObservationDeletion), db.observations.Nodup →
      (deleteObservationsSQLite db ds).observations.Nodup) ∧
    (∀ (db : SQLiteDB) (rels : List Relation), db.observations.Nodup →
      (createRelationsSQLite db rels).1.observations.Nodup) ∧
    (∀ (db : SQLiteDB) (i : Nat), db.observations.Nodup → (obsOf db i).Nodup) := by
  refine ⟨?_, ?_, ?_, ?_, ?_, ?_, ?_, ?_, ?_, ?_, ?_⟩
  · exact fun g es hg hes => createEntitiesJSONL_nodupObs es g hg hes
  · exact fun g g' pairs added h hg hps =>
      addObservationsJSONL_nodup pairs g g' added h hg hps
  · intro g names hg E hE
    exact hg E (List.mem_filter.mp hE).1
  · intro g ds hg
    unfold deleteObservationsJSONL
    refine foldl_preserves _ (fun g => ∀ E ∈ g.entities, E.observations.Nodup) ?_ ds g hg
    intro b d hb
    exact deleteObsFromEntities_nodup d.entityName d.observations b.entities hb
  · intro g rels hg
    rw [createRelationsJSONL_entities]
    exact hg
  · exact fun db es h => createEntitiesSQLite_nodupObs es db h
  · exact fun db pairs h => addObservationsSQLite_nodup pairs db h
  · intro db names h
    exact h.filter _
  · exact fun db ds h => deleteObservationsSQLite_nodup ds db h
  · intro db rels h
    rw [(createRelationsSQLite_frame rels db).2.2]
    exact h
  · exact fun db i h => obsOf_nodup db i h

/-- C10 witness: the SQLite backend deduplicates even a duplicated input
(creating `a` with observations `[x, x]` stores one row), and the JSONL
preservation components instantiated on duplicate-free inputs. -/
theorem C10_noDupObservations_witness :
    ((createEntitiesSQLite emptyDB [⟨"a", "t", ["x", "x"]⟩]).1.observations.Nodup) ∧
    ((createEntitiesSQLite emptyDB [⟨"a", "t", ["x", "x"]⟩]).1.observations =
      [⟨1, "x"⟩]) ∧
    (∀ E ∈ (createEntitiesJSONL emptyKG [⟨"a", "t", ["x", "y"]⟩]).1.entities,
      E.observations.Nodup) ∧
    (obsOf (createEntitiesSQLite emptyDB [⟨"a", "t", ["x", "x"]⟩]).1 1).Nodup :=
  ⟨C10_noDupObservations.2.2.2.2.2.1 emptyDB [⟨"a", "t", ["x", "x"]⟩] (by decide),
   by decide,
   C10_noDupObservations.1 emptyKG [⟨"a", "t", ["x", "y"]⟩] (by decide) (by decide),
   C10_noDupObservations.2.2.2.2.2.2.2.2.2.2
     (createEntitiesSQLite emptyDB [⟨"a", "t", ["x", "x"]⟩]).1 1
     (C10_noDupObservations.2.2.2.2.2.1 emptyDB [⟨"a", "t", ["x", "x"]⟩] (by decide))⟩
